import Mathlib

/-!
Verification of the albus-status-bar-music core against its specification.

The TypeScript sources are shallowly embedded: byte buffers become `List Nat`
(`DataView.getUint8` reads), strings stay `String`, JavaScript truthiness of
string-valued fields becomes `truthy : Option String → Bool`, and the one
external effect reached by the modelled code (`Math.random`-driven shuffling)
becomes an explicit function parameter.  Every definition is translated from
the repository source; definitions whose name ends in `Spec` restate the
specification's words for refinement comparisons.
-/

namespace JsUtil

/-- JavaScript truthiness of a possibly-absent string value: `undefined`,
`null` and `""` are falsy, every other string is truthy. -/
def truthy : Option String → Bool
  | none => false
  | some s => !(s == "")

/-- JavaScript `a || b` on a possibly-absent string with a string default. -/
def jsOr (a : Option String) (b : String) : String :=
  match a with
  | some s => if s == "" then b else s
  | none => b

/-- JavaScript `a || null` on a possibly-absent string. -/
def jsOrNull (a : Option String) : Option String :=
  match a with
  | some s => if s == "" then none else some s
  | none => none

/-- Characters removed by JavaScript `String.prototype.trim` (ECMA-262
WhiteSpace and LineTerminator). -/
def isJsWhitespace (c : Char) : Bool :=
  c.toNat = 9 || c.toNat = 10 || c.toNat = 11 || c.toNat = 12 || c.toNat = 13 ||
  c.toNat = 32 || c.toNat = 0xA0 || c.toNat = 0x1680 ||
  (0x2000 ≤ c.toNat && c.toNat ≤ 0x200A) ||
  c.toNat = 0x2028 || c.toNat = 0x2029 || c.toNat = 0x202F ||
  c.toNat = 0x205F || c.toNat = 0x3000 || c.toNat = 0xFEFF

/-- JavaScript `String.prototype.trim`. -/
def jsTrim (s : String) : String :=
  ⟨(s.toList.dropWhile isJsWhitespace).reverse.dropWhile isJsWhitespace |>.reverse⟩

/-- JavaScript `String.prototype.toLowerCase`, restricted to the ASCII
fragment that the embedded code paths exercise (non-ASCII characters used by
the sources, such as the CJK defaults, are fixed points of `toLowerCase`). -/
def jsToLower (s : String) : String :=
  ⟨s.data.map Char.toLower⟩

/-- JavaScript `String.prototype.startsWith`. -/
def jsStartsWith (s pre : String) : Bool :=
  pre.data.isPrefixOf s.data

/-- Split a character list on a separator character. -/
def splitOnChar (sep : Char) : List Char → List (List Char)
  | [] => [[]]
  | c :: rest =>
    match splitOnChar sep rest with
    | [] => [[]]
    | h :: t => if c = sep then [] :: h :: t else (c :: h) :: t

/-- JavaScript `String.prototype.split` with a one-character separator
(the only separators the sources use: `"/"`, `"."`, `","`). -/
def jsSplit (sep : Char) (s : String) : List String :=
  (splitOnChar sep s.data).map fun l => ⟨l⟩

/-- JavaScript `String.prototype.substring(n)`. -/
def jsDrop (s : String) (n : Nat) : String :=
  ⟨s.data.drop n⟩

/-- Whether `p` occurs as a contiguous sublist of `l`. -/
def listInfix (p : List Char) : List Char → Bool
  | [] => p.isEmpty
  | c :: rest => p.isPrefixOf (c :: rest) || listInfix p rest

/-- JavaScript `String.prototype.includes`. -/
def strContains (s pat : String) : Bool :=
  listInfix pat.toList s.toList

end JsUtil

namespace Playlist

open JsUtil

/-- The textual metadata fields consulted by the playlist view
(`TrackMetadata` without the cover/lyrics payload, which `updateView`,
`playNext` and `playPrevious` never read). -/
structure Meta where
  title : String
  artist : String
  album : String
deriving Repr, DecidableEq

/-- `MusicTrack` from `src/types` as used by `PlaylistManager` in
`src/main.ts` (the `resourcePath` handle is opaque to the modelled logic and
is omitted). -/
structure Track where
  id : Nat
  name : String
  path : String
  metadata : Option Meta
deriving Repr, DecidableEq

/-- The mutable fields of `PlaylistManager` (`src/main.ts`) read or written
by the modelled methods, together with the `settings` fields they consult. -/
structure State where
  fullPlaylist : List Track
  viewPlaylist : List Track
  currentTrack : Option Track
  currentCategory : String
  searchQuery : String
  playlists : List (String × List Track)
  favorites : List String
  playbackMode : String
deriving Repr, DecidableEq

/-- `PlaylistManager.getPlaylistTracks`: look the named playlist up in the
`playlists` map, returning a copy or the empty list. -/
def getPlaylistTracks (st : State) (playlistName : String) : List Track :=
  match st.playlists.lookup playlistName with
  | some l => l
  | none => []

/-- The search predicate inside `PlaylistManager.updateView`
(`src/main.ts` lines 802-814): match the lower-cased title (falling back to
the file name), artist or album against the stored query. -/
def matchesQuery (q : String) (t : Track) : Bool :=
  let title := jsOr (t.metadata.map (·.title)) t.name
  let artist := jsOr (t.metadata.map (·.artist)) ""
  let album := jsOr (t.metadata.map (·.album)) ""
  strContains (jsToLower title) q ||
  strContains (jsToLower artist) q ||
  strContains (jsToLower album) q

/-- `PlaylistManager.loadTrack` (`src/main.ts`): set the current track (the
`autoPlay` flag only drives the excluded audio layer). -/
def loadTrack (st : State) (t : Option Track) : State :=
  { st with currentTrack := t }

/-- `PlaylistManager.updateView` (`src/main.ts` lines 775-833).  The
`shuffle` parameter stands for the external `Math.random`-driven
`[...sourcePlaylist].sort(() => Math.random() - 0.5)` call; a JavaScript
array sort returns a rearrangement of its input for any comparator, which
theorems capture through a permutation hypothesis on `shuffle`. -/
def updateView (shuffle : List Track → List Track) (st : State) : State :=
  let sourcePlaylist : List Track :=
    if st.currentCategory == "all" then st.fullPlaylist
    else if st.currentCategory == "favorite" then
      st.fullPlaylist.filter (fun t => st.favorites.contains t.path)
    else
      let playlistTracks := getPlaylistTracks st st.currentCategory
      if playlistTracks.length > 0 then playlistTracks
      else st.fullPlaylist.filter (fun t => jsStartsWith t.path st.currentCategory)
  let sourcePlaylist :=
    if st.searchQuery != "" then sourcePlaylist.filter (matchesQuery st.searchQuery)
    else sourcePlaylist
  let view :=
    if st.playbackMode == "shuffle" then shuffle sourcePlaylist else sourcePlaylist
  let st' := { st with viewPlaylist := view }
  if st'.currentTrack.isNone ||
      !(st'.fullPlaylist.any fun t =>
          t.path == (st'.currentTrack.map (·.path)).getD "") then
    loadTrack st' view.head?
  else st'

/-- `PlaylistManager.setSearchQuery` (`src/main.ts` lines 857-860). -/
def setSearchQuery (shuffle : List Track → List Track) (q : String) (st : State) :
    State :=
  updateView shuffle { st with searchQuery := jsToLower (jsTrim q) }

/-- `PlaylistManager.playNext` (`src/main.ts` lines 895-907).  The index
arithmetic is carried out on `Int` exactly as JavaScript does on its
numbers here (all values are small integers). -/
def playNext (st : State) : Option Track × State :=
  if st.viewPlaylist.length = 0 then (none, st)
  else
    let currentIndex : Int :=
      match st.currentTrack with
      | some ct =>
        match st.viewPlaylist.findIdx? (fun t => t.id == ct.id) with
        | some i => (i : Int)
        | none => -1
      | none => -1
    let nextIndex := (currentIndex + 1) % (st.viewPlaylist.length : Int)
    let nextTrack := st.viewPlaylist.get? nextIndex.toNat
    (nextTrack, loadTrack st nextTrack)

/-- `PlaylistManager.playPrevious` (`src/main.ts` lines 912-929). -/
def playPrevious (st : State) : Option Track × State :=
  if st.viewPlaylist.length = 0 then (none, st)
  else
    let currentIndex : Int :=
      match st.currentTrack with
      | some ct =>
        match st.viewPlaylist.findIdx? (fun t => t.id == ct.id) with
        | some i => (i : Int)
        | none => -1
      | none => -1
    let prevIndex : Int :=
      if currentIndex = -1 then (st.viewPlaylist.length : Int) - 1
      else (currentIndex - 1 + st.viewPlaylist.length) % (st.viewPlaylist.length : Int)
    let prevTrack := st.viewPlaylist.get? prevIndex.toNat
    (prevTrack, loadTrack st prevTrack)

end Playlist

namespace TextCodec

/-- The Unicode replacement character emitted by `TextDecoder` for
malformed input. -/
def repl : Char := Char.ofNat 0xFFFD

/-- JavaScript `String.fromCharCode` applied pointwise to a byte list. -/
def fromCharCode (data : List Nat) : String :=
  ⟨data.map Char.ofNat⟩

/-- Handling of one byte in the WHATWG UTF-8 decoder's initial state:
either an output character (an ASCII byte or U+FFFD for an invalid lead
byte) or the decoder state `(codePoint, needed, lower, upper)` set by a
valid lead byte. -/
def utf8Start (b : Nat) : Sum Char (Nat × Nat × Nat × Nat) :=
  if b ≤ 0x7F then Sum.inl (Char.ofNat b)
  else if 0xC2 ≤ b && b ≤ 0xDF then Sum.inr (b &&& 0x1F, 1, 0x80, 0xBF)
  else if 0xE0 ≤ b && b ≤ 0xEF then
    Sum.inr (b &&& 0xF, 2,
      if b = 0xE0 then 0xA0 else 0x80, if b = 0xED then 0x9F else 0xBF)
  else if 0xF0 ≤ b && b ≤ 0xF4 then
    Sum.inr (b &&& 0x7, 3,
      if b = 0xF0 then 0x90 else 0x80, if b = 0xF4 then 0x8F else 0xBF)
  else Sum.inl repl

/-- The WHATWG UTF-8 decoder state machine backing
`new TextDecoder("utf-8")` (non-fatal mode: malformed sequences become
U+FFFD).  Arguments: remaining input, accumulated code point, continuation
bytes still needed, continuation bytes seen, current lower/upper boundary
for the next byte, output accumulator (reversed).  The standard's
"prepend byte and restart" error step is inlined through `utf8Start` so
the recursion is structural. -/
def utf8Loop : List Nat → Nat → Nat → Nat → Nat → Nat → List Char → List Char
  | [], _, needed, _, _, _, acc =>
    if needed = 0 then acc.reverse else (repl :: acc).reverse
  | b :: rest, codePoint, needed, seen, lower, upper, acc =>
    if needed = 0 then
      match utf8Start b with
      | Sum.inl c => utf8Loop rest 0 0 0 0x80 0xBF (c :: acc)
      | Sum.inr (cp, nd, lo, up) => utf8Loop rest cp nd 0 lo up acc
    else
      if lower ≤ b && b ≤ upper then
        let cp := (codePoint <<< 6) ||| (b &&& 0x3F)
        if seen + 1 = needed then
          utf8Loop rest 0 0 0 0x80 0xBF (Char.ofNat cp :: acc)
        else utf8Loop rest cp needed (seen + 1) 0x80 0xBF acc
      else
        match utf8Start b with
        | Sum.inl c => utf8Loop rest 0 0 0 0x80 0xBF (c :: repl :: acc)
        | Sum.inr (cp, nd, lo, up) => utf8Loop rest cp nd 0 lo up (repl :: acc)

/-- `new TextDecoder("utf-8").decode` on a byte buffer. -/
def utf8Decode (input : List Nat) : String :=
  ⟨utf8Loop input 0 0 0 0x80 0xBF []⟩

/-- Assemble 16-bit code units from a byte stream (`le` selects byte
order); a dangling final byte decodes as U+FFFD per the WHATWG shared
UTF-16 decoder. -/
def utf16Units (le : Bool) : List Nat → List Nat
  | b0 :: b1 :: rest =>
    (if le then b1 * 256 + b0 else b0 * 256 + b1) :: utf16Units le rest
  | [_] => [0xFFFD]
  | [] => []

/-- Combine UTF-16 code units into characters, replacing unpaired
surrogates by U+FFFD. -/
def utf16Combine : List Nat → List Char
  | [] => []
  | u :: rest =>
    if 0xD800 ≤ u && u ≤ 0xDBFF then
      match rest with
      | [] => [repl]
      | u2 :: rest2 =>
        if 0xDC00 ≤ u2 && u2 ≤ 0xDFFF then
          Char.ofNat (0x10000 + (u - 0xD800) * 0x400 + (u2 - 0xDC00)) ::
            utf16Combine rest2
        else repl :: utf16Combine (u2 :: rest2)
    else if 0xDC00 ≤ u && u ≤ 0xDFFF then repl :: utf16Combine rest
    else Char.ofNat u :: utf16Combine rest

/-- `new TextDecoder("utf-16").decode`: UTF-16LE with a matching leading
byte-order mark consumed. -/
def utf16Decode (input : List Nat) : String :=
  let body :=
    match input with
    | 0xFF :: 0xFE :: rest => rest
    | _ => input
  ⟨utf16Combine (utf16Units true body)⟩

/-- `new TextDecoder("utf-16be").decode`: UTF-16BE with a matching leading
byte-order mark consumed. -/
def utf16beDecode (input : List Nat) : String :=
  let body :=
    match input with
    | 0xFE :: 0xFF :: rest => rest
    | _ => input
  ⟨utf16Combine (utf16Units false body)⟩

end TextCodec

namespace Id3

open JsUtil TextCodec

/-- `DataView.getUint8` on the embedded buffer (a real `DataView` holds
bytes `< 256`; an in-range read returns the stored byte unchanged). -/
def getUint8 (dv : List Nat) (i : Nat) : Nat := dv.getD i 0

/-- `DataView.getUint16` (big-endian, the source never passes
`littleEndian`). -/
def getUint16 (dv : List Nat) (off : Nat) : Nat :=
  getUint8 dv off * 256 + getUint8 dv (off + 1)

/-- `DataView.getUint32` (big-endian). -/
def getUint32 (dv : List Nat) (off : Nat) : Nat :=
  ((getUint8 dv off * 256 + getUint8 dv (off + 1)) * 256 +
    getUint8 dv (off + 2)) * 256 + getUint8 dv (off + 3)

/-- `MetadataParser.readString` (`src/unnamed/part_004`): build a string
from `length` consecutive `String.fromCharCode(getUint8)` reads. -/
def readString (dv : List Nat) (off len : Nat) : String :=
  ⟨(List.range len).map fun i => Char.ofNat (getUint8 dv (off + i))⟩

/-- `MetadataParser.readSyncSafeInt` (`src/unnamed/part_004` lines 472-478):
four bytes, seven significant bits each. -/
def readSyncSafeInt (dv : List Nat) (off : Nat) : Nat :=
  (List.range 4).foldl (fun value i => value * 128 + getUint8 dv (off + i)) 0

/-- `TrackMetadata` as produced by the binary parser in
`src/unnamed/part_004` (its `parseFrame` writes title/artist/album/cover). -/
structure Metadata where
  title : String
  artist : String
  album : String
  cover : Option String
deriving Repr, DecidableEq

/-- `DEFAULT_METADATA` from `src/utils/helpers.ts` lines 133-138 (the
spec's "Unknown Title / Unknown Artist / Unknown Album" defaults). -/
def DEFAULT_METADATA : Metadata :=
  { title := "未知标题", artist := "未知艺术家", album := "未知专辑", cover := none }

/-- `ID3v2Frame` from `src/types`. -/
structure Frame where
  id : String
  size : Nat
  flags : Nat
  data : List Nat
deriving Repr, DecidableEq

/-- The `/^[A-Z0-9]{4}$/` frame-identifier shape check. -/
def frameIdOk (s : String) : Bool :=
  s.length == 4 && s.toList.all fun c => c.isUpper || c.isDigit

/-- `MetadataParser.readFrame` (`src/unnamed/part_004` lines 96-130): the
frame size is sync-safe for tag major version ≥ 4 and a plain big-endian
32-bit integer otherwise. -/
def readFrame (dv : List Nat) (offset : Nat) : Option Frame :=
  if offset + 10 > dv.length then none
  else
    let id := readString dv offset 4
    if !frameIdOk id then none
    else
      let majorVersion := getUint8 dv 3
      let size :=
        if majorVersion ≥ 4 then readSyncSafeInt dv (offset + 4)
        else getUint32 dv (offset + 4)
      let flags := getUint16 dv (offset + 8)
      if size = 0 || offset + 10 + size > dv.length then none
      else some { id := id, size := size, flags := flags,
                  data := (dv.drop (offset + 10)).take size }

/-- Truncation of a decoded text at the first embedded NUL, i.e.
`text.indexOf("\x00")` followed by `text.substring(0, nullIndex)`. -/
def truncAtNull (s : String) : String :=
  ⟨s.toList.takeWhile fun c => c.toNat ≠ 0⟩

/-- `MetadataParser.decodeText` (`src/unnamed/part_004` lines 445-452): a
`TextDecoder` for the given label (all three labels used by the caller are
valid, so the `String.fromCharCode` fallback is only reached for other
labels). -/
def decodeText (data : List Nat) (encoding : String) : String :=
  if encoding == "utf-8" then utf8Decode data
  else if encoding == "utf-16" then utf16Decode data
  else if encoding == "utf-16be" then utf16beDecode data
  else fromCharCode data

/-- `MetadataParser.parseTextFrame` (`src/unnamed/part_004` lines 158-191).
Note that encoding bytes 0 (ISO-8859-1) and 3 (UTF-8) are both routed to
the `"utf-8"` decoder by the source. -/
def parseTextFrame (data : List Nat) : Option String :=
  if data.length < 1 then none
  else
    let encoding := data.getD 0 0
    let textData := data.drop 1
    let text :=
      if encoding = 0 || encoding = 3 then decodeText textData "utf-8"
      else if encoding = 1 then decodeText textData "utf-16"
      else if encoding = 2 then decodeText textData "utf-16be"
      else ""
    let text := truncAtNull text
    let trimmed := jsTrim text
    if trimmed == "" then none else some trimmed

/-- Length in bytes of the encoding-dependent picture-frame description
(single-byte encodings), including the NUL terminator when found
(`src/unnamed/part_004` lines 221-231, relative to the current offset). -/
def descLenSingle (tail : List Nat) : Nat :=
  let n := (tail.takeWhile fun b => b ≠ 0).length
  if n < tail.length then n + 1 else n

/-- Length in bytes of the description for double-byte encodings,
including the two-byte terminator when found (`src/unnamed/part_004`
lines 232-244). -/
def descLenDouble : List Nat → Nat
  | b0 :: b1 :: rest => if b0 = 0 && b1 = 0 then 2 else 2 + descLenDouble rest
  | _ => 0

/-- `MetadataParser.isValidImageData` (`src/unnamed/part_004` lines
298-355).  The source's JPEG branch scans for an end marker but returns
`true` whether or not it is found, so the branch reduces to `true`. -/
def isValidImageData (data : List Nat) : Bool :=
  let b := fun i => data.getD i 0
  if data.length < 4 then false
  else if b 0 = 0xFF && b 1 = 0xD8 && b 2 = 0xFF then true
  else if b 0 = 0x89 && b 1 = 0x50 && b 2 = 0x4E && b 3 = 0x47 then
    data.length ≥ 8
  else if b 0 = 0x47 && b 1 = 0x49 && b 2 = 0x46 && b 3 = 0x38 then
    data.length ≥ 6
  else if b 0 = 0x42 && b 1 = 0x4D then data.length ≥ 14
  else if b 0 = 0x52 && b 1 = 0x49 && b 2 = 0x46 && b 3 = 0x46 &&
      b 8 = 0x57 && b 9 = 0x45 && b 10 = 0x42 && b 11 = 0x50 then true
  else data.length > 100

/-- `MetadataParser.parsePictureFrame` (`src/unnamed/part_004` lines
196-265).  `mkUrl` stands for the external `createBlobUrl` /
`URL.createObjectURL` runtime call (image bytes and MIME type to the
resulting object-URL string). -/
def parsePictureFrame (mkUrl : List Nat → String → String) (data : List Nat) :
    Option String :=
  if data.length < 5 then none
  else
    let encoding := data.getD 0 0
    let mimeLen := ((data.drop 1).takeWhile fun b => b ≠ 0).length
    let mimeType := fromCharCode ((data.drop 1).take mimeLen)
    let offset := 1 + mimeLen + 1
    if offset ≥ data.length then none
    else
      let offset := offset + 1
      if offset ≥ data.length then none
      else
        let descriptionBytes :=
          if encoding = 0 || encoding = 3 then descLenSingle (data.drop offset)
          else if encoding = 1 || encoding = 2 then descLenDouble (data.drop offset)
          else 0
        let offset := offset + descriptionBytes
        if offset ≥ data.length then none
        else
          let imageData := data.drop offset
          if imageData.length = 0 then none
          else if !isValidImageData imageData then none
          else some (mkUrl imageData mimeType)

/-- `MetadataParser.parseFrame` (`src/unnamed/part_004` lines 135-153). -/
def parseFrame (mkUrl : List Nat → String → String) (fr : Frame)
    (md : Metadata) : Metadata :=
  if fr.id == "TIT2" then { md with title := (parseTextFrame fr.data).getD md.title }
  else if fr.id == "TPE1" then
    { md with artist := (parseTextFrame fr.data).getD md.artist }
  else if fr.id == "TALB" then
    { md with album := (parseTextFrame fr.data).getD md.album }
  else if fr.id == "APIC" then
    { md with cover := parsePictureFrame mkUrl fr.data }
  else md

/-- The frame-walking `while` loop of `MetadataParser.parseID3v2`
(`src/unnamed/part_004` lines 68-87): stop past the declared tag size,
too close to the end of the buffer, on an unreadable frame, or after more
than 50 frames. -/
def walkFrames (mkUrl : List Nat → String → String) (dv : List Nat)
    (tagSize offset frameCount : Nat) (md : Metadata) : Metadata :=
  if offset < tagSize + 10 ∧ offset + 10 < dv.length then
    match readFrame dv offset with
    | none => md
    | some fr =>
      let md := parseFrame mkUrl fr md
      if frameCount + 1 > 50 then md
      else walkFrames mkUrl dv tagSize (offset + 10 + fr.size) (frameCount + 1) md
  else md
termination_by 51 - frameCount
decreasing_by simp_wf; omega

/-- `MetadataParser.parseID3v2` (`src/unnamed/part_004` lines 22-91). -/
def parseID3v2 (mkUrl : List Nat → String → String) (dv : List Nat) : Metadata :=
  if dv.length < 10 then DEFAULT_METADATA
  else if readString dv 0 3 != "ID3" then DEFAULT_METADATA
  else
    let majorVersion := getUint8 dv 3
    let flags := getUint8 dv 5
    if majorVersion < 2 || majorVersion > 4 then DEFAULT_METADATA
    else
      let tagSize := readSyncSafeInt dv 6
      let offset := 10
      let offset :=
        if flags &&& 0x40 ≠ 0 then
          if offset + 4 ≤ dv.length then offset + 4 + readSyncSafeInt dv offset
          else offset
        else offset
      walkFrames mkUrl dv tagSize offset 0 DEFAULT_METADATA

/-- `MetadataParser.extractMetadata` (`src/unnamed/part_004` lines 10-17):
the embedded `parseID3v2` is total, so the `catch`-and-return-defaults
wrapper adds nothing. -/
def extractMetadata (mkUrl : List Nat → String → String) (dv : List Nat) :
    Metadata :=
  parseID3v2 mkUrl dv

end Id3

namespace Cover

open JsUtil

/-- `mm.IPicture`: an embedded picture's format hint and raw bytes. -/
structure Picture where
  format : String
  data : List Nat
deriving Repr, DecidableEq

/-- The base64 alphabet used by `btoa`. -/
def b64Char (n : Nat) : Char :=
  "ABCDEFGHIJKLMNOPQRSTUVWXYZabcdefghijklmnopqrstuvwxyz0123456789+/".toList.getD n 'A'

/-- `btoa` over raw bytes (the source first turns the bytes into a binary
string with `String.fromCharCode`; the chunking there only avoids a stack
limit and does not change the result). -/
def base64Encode : List Nat → String
  | [] => ""
  | [a] =>
    ⟨[b64Char (a / 4), b64Char (a % 4 * 16), '=', '=']⟩
  | [a, b] =>
    ⟨[b64Char (a / 4), b64Char (a % 4 * 16 + b / 16), b64Char (b % 16 * 4), '=']⟩
  | a :: b :: c :: rest =>
    (⟨[b64Char (a / 4), b64Char (a % 4 * 16 + b / 16),
       b64Char (b % 16 * 4 + c / 64), b64Char (c % 64)]⟩ : String) ++
      base64Encode rest

/-- `MetadataParser.createDataUrl` (`src/services/MetadataParser.ts` lines
368-391). -/
def createDataUrl (picture : Picture) : String :=
  "data:image/" ++ picture.format ++ ";base64," ++ base64Encode picture.data

/-- `MetadataParser.isValidCoverData` (`src/services/MetadataParser.ts`
lines 136-153). -/
def isValidCoverData (cover : String) : Bool :=
  if cover == "" then false
  else if jsStartsWith cover "data:image/" then true
  else if jsStartsWith cover "http" then true
  else false

/-- `MetadataParser.isSamePictureData` (`src/services/MetadataParser.ts`
lines 158-190).  The 10% slack test `Math.abs(b - e) > e * 0.1` is modelled
as the exact `10 * |b - e| > e`: both sides of the JavaScript comparison
are integers held exactly in doubles, and for the relevant magnitudes no
integer lies between `e / 10` and `e * 0.1` as a double, so the two
predicates agree. -/
def isSamePictureData (picture : Picture) (existingCover : String) : Bool :=
  if existingCover == "" then false
  else if jsStartsWith existingCover "data:" then
    let mimeType := "image/" ++ picture.format
    if !(jsStartsWith existingCover ("data:" ++ mimeType)) then false
    else
      let dataStartIndex :=
        match existingCover.toList.findIdx? (fun c => c = ',') with
        | some i => i + 1
        | none => 0
      let base64Data := existingCover.toList.drop dataStartIndex
      let expectedLength := (picture.data.length * 4 + 2) / 3
      if 10 * ((base64Data.length : Int) - expectedLength).natAbs >
          expectedLength then false
      else true
  else false

/-- `MetadataParser.extractCover` (`src/services/MetadataParser.ts` lines
38-131).  `compressResult` stands for the value the single awaited
`compressImage(picture)` call would resolve with (an environment-dependent
external operation; `none` models both "no compressor available" and a
failed compression).  The size comparisons `picture.data.length / 1024 ≤ k`
are exact in floating point (division by 1024) and are expressed directly
on byte counts. -/
def extractCover (pictures : List Picture) (existingCover : Option String)
    (compressResult : Option String) : Option String :=
  if truthy existingCover && isValidCoverData (existingCover.getD "") then
    existingCover
  else if pictures.isEmpty then jsOrNull existingCover
  else
    let picture := pictures.headD { format := "", data := [] }
    if truthy existingCover && isSamePictureData picture (existingCover.getD "")
    then existingCover
    else
      let len := picture.data.length
      if len ≤ 500 * 1024 then some (createDataUrl picture)
      else if len ≤ 2048 * 1024 then
        if truthy compressResult then compressResult
        else some (createDataUrl picture)
      else if len ≤ 5120 * 1024 then
        if truthy compressResult then compressResult
        else jsOrNull existingCover
      else jsOrNull existingCover

end Cover

namespace MetaMgr

open JsUtil

/-- A persisted cache entry as `MetadataManager` sees it after
`JSON.parse` (`existingData.metadata[path]`): every field may be absent. -/
structure StoredMeta where
  title : Option String
  artist : Option String
  album : Option String
  cover : Option String
  lyrics : Option String
deriving Repr, DecidableEq

/-- `TrackMetadata` (`src/types`) as built by `MetadataManager`. -/
structure TrackMeta where
  title : String
  artist : String
  album : String
  cover : Option String
  lyrics : Option String
deriving Repr, DecidableEq

/-- `MetadataManager.shouldReprocessFile` (`src/services/MetadataManager.ts`
lines 343-367).  The `file` argument is unused by the source body and is
omitted. -/
def shouldReprocessFile (existingMetadata : Option StoredMeta) : Bool :=
  match existingMetadata with
  | none => true
  | some md =>
    if !truthy md.title || !truthy md.artist then true
    else if !truthy md.cover then true
    else if !truthy md.lyrics then true
    else false

/-- Whether a base64 character is in the `atob` alphabet. -/
def isB64Char (c : Char) : Bool :=
  c.isAlpha || c.isDigit || c = '+' || c = '/'

/-- Whether `atob` succeeds on `s` (WHATWG forgiving-base64: strip ASCII
whitespace, allow up to two trailing `=` when the length is a multiple of
four, reject length ≡ 1 mod 4 and any character outside the alphabet). -/
def atobOk (s : String) : Bool :=
  let l := s.toList.filter fun c =>
    !(c.toNat = 9 || c.toNat = 10 || c.toNat = 12 || c.toNat = 13 || c.toNat = 32)
  let stripEq := fun (x : List Char) =>
    if x.getLast? = some '=' then x.dropLast else x
  let l := if l.length % 4 == 0 then stripEq (stripEq l) else l
  if l.length % 4 == 1 then false else l.all isB64Char

/-- `MetadataManager.validateAndPreserveCover`
(`src/services/MetadataManager.ts` lines 302-337): drop blob URLs and
malformed data URLs, keep well-formed `data:image/...;base64,...` and
`http...` covers. -/
def validateAndPreserveCover (cover : Option String) : Option String :=
  match cover with
  | none => none
  | some c =>
    if c == "" then none
    else if jsStartsWith c "blob:" then none
    else if jsStartsWith c "data:image/" then
      let parts := jsSplit ',' c
      if parts.length == 2 && strContains (parts.headD "") "base64" then
        if atobOk ⟨(parts.getD 1 "").toList.take 10⟩ then some c else none
      else if jsStartsWith c "http" then some c
      else none
    else if jsStartsWith c "http" then some c
    else none

/-- What `refreshAllMetadata` does with one enumerated file that has a
persisted entry (or none): the persisted-entry branch of
`MetadataManager.processFileIfNeeded` (`src/services/MetadataManager.ts`
lines 208-264).  `reprocess` marks the fall-through to the fresh
`extractFileMetadata` call; `reuse m` is the entry written back to the
cache without touching the file. -/
inductive RefreshDecision where
  | reprocess
  | reuse (m : TrackMeta)
deriving Repr, DecidableEq

/-- The reuse record built at `src/services/MetadataManager.ts` lines
225-235. -/
def reuseEntry (md : StoredMeta) : TrackMeta :=
  { title := md.title.getD ""
    artist := md.artist.getD ""
    album := jsOr md.album "未知专辑"
    cover := validateAndPreserveCover md.cover
    lyrics := jsOrNull md.lyrics }

/-- `MetadataManager.processFileIfNeeded` restricted to its inputs: decide
between reusing the persisted entry (normalised as the source does) and
re-extracting from the file. -/
def processFileIfNeeded (existingMetadata : Option StoredMeta) :
    RefreshDecision :=
  match existingMetadata with
  | some md =>
    if shouldReprocessFile (some md) then .reprocess
    else .reuse (reuseEntry md)
  | none => .reprocess

end MetaMgr

namespace Scan

open JsUtil Playlist

/-- An Obsidian `TFile` as consumed by `loadFullPlaylist`: full vault
path, file name (with extension) and basename (stem). -/
structure VFile where
  path : String
  name : String
  basename : String
deriving Repr, DecidableEq

/-- `normalizePath` from `src/utils/helpers.ts`: replace backslashes by
forward slashes. -/
def normalizePath (p : String) : String :=
  ⟨p.data.map fun c => if c = '\\' then '/' else c⟩

/-- `isSupportedAudioFile` from `src/utils/helpers.ts` lines 31-34. -/
def isSupportedAudioFile (filename : String) : Bool :=
  let ext := jsToLower ((jsSplit '.' filename).getLastD "")
  ["flac", "mp3", "wav", "m4a", "ogg"].contains ext

/-- JavaScript `Map.set` keyed by `path`: replace in place if the key
exists, else append (`collectedFiles.set(file.path, file)`). -/
def mapSet (m : List VFile) (f : VFile) : List VFile :=
  if m.any (fun g => g.path == f.path) then
    m.map fun g => if g.path == f.path then f else g
  else m ++ [f]

/-- One iteration of the file-collection loop of `loadFullPlaylist`
(`src/main.ts` lines 643-658): keep a supported audio file under the
normalised root, deduplicated by path in a `Map`. -/
def collectStep (mfp : String) (acc : List VFile) (f : VFile) : List VFile :=
  if isSupportedAudioFile f.name && jsStartsWith f.path mfp then mapSet acc f
  else acc

/-- The file-collection loop of `loadFullPlaylist` (`src/main.ts` lines
639-664); the batching and UI-yield delays do not affect the collected
result. -/
def collect (files : List VFile) (mfp : String) : List VFile :=
  files.foldl (collectStep mfp) []

/-- `relativePath.split('/').filter(part => part)` on the path with the
root prefix removed (`src/main.ts` lines 649-650 and 690-691). -/
def pathParts (mfp : String) (path : String) : List String :=
  (jsSplit '/' (jsDrop path mfp.length)).filter fun part => part ≠ ""

/-- One playlist insertion from `src/main.ts` lines 695-703: create the
named playlist on first use, then push the track unless a track with the
same path is already in it. -/
def addToPlaylists (pls : List (String × List Track)) (playlistName : String)
    (t : Track) : List (String × List Track) :=
  if pls.any (fun e => e.1 == playlistName) then
    pls.map fun e =>
      if e.1 == playlistName then
        (e.1, if e.2.any (fun x => x.path == t.path) then e.2 else e.2 ++ [t])
      else e
  else pls ++ [(playlistName, [t])]

/-- The track built for one collected file (`src/main.ts` lines 671-687). -/
def trackFromFile (getMeta : String → Option Meta) (i : Nat) (f : VFile) :
    Track :=
  { id := i
    name := f.basename
    path := f.path
    metadata := some ((getMeta f.path).getD
      { title := f.basename, artist := "未知艺术家", album := "未知专辑" }) }

/-- The playlist-grouping part of the `fileArray.map` loop (`src/main.ts`
lines 689-704), as a fold over the already-built tracks.  The source
interleaves track construction and playlist insertion in one pass; the
insertions never influence later track construction, so separating the two
passes preserves the result. -/
def groupStep (mfp : String) (pls : List (String × List Track)) (t : Track) :
    List (String × List Track) :=
  let parts := pathParts mfp t.path
  if parts.length > 1 then addToPlaylists pls (parts.headD "") t else pls

/-- The playlist-grouping fold over the built tracks (see `groupStep`). -/
def buildPlaylists (mfp : String) (tracks : List Track) :
    List (String × List Track) :=
  tracks.foldl (groupStep mfp) []

/-- `PlaylistManager.loadFullPlaylist` (`src/main.ts` lines 615-731)
restricted to its data result: the rebuilt full playlist and the
folder-keyed sub-playlists.  `getMeta` stands for
`this.metadataManager.getMetadata`. -/
def loadFullPlaylist (files : List VFile) (musicFolderPath : String)
    (getMeta : String → Option Meta) :
    List Track × List (String × List Track) :=
  if jsTrim musicFolderPath == "" then ([], [])
  else
    let mfp := normalizePath musicFolderPath
    let fileArray := collect files mfp
    let fullPlaylist := fileArray.enum.map fun p => trackFromFile getMeta p.1 p.2
    (fullPlaylist, buildPlaylists mfp fullPlaylist)

end Scan

namespace SpecSide

open JsUtil TextCodec

/-- Modelled from the spec: ISO-8859-1 ("Latin-1") decoding, each byte
mapped to the code point of the same value.  Used only to compare the
source's behaviour with the specified encoding table. -/
def latin1Decode (data : List Nat) : String :=
  ⟨data.map Char.ofNat⟩

/-- The amended text-frame contract, stated from the specification's words
with the encoding table corrected to what the source does: byte 0
(nominally Latin-1) and byte 3 are both decoded as UTF-8, byte 1 as UTF-16
with byte-order mark, byte 2 as UTF-16BE; any other selector yields no
text.  The decoded string is truncated at the first embedded NUL, trimmed,
and an empty result is reported as absent. -/
def textFrameSpec (data : List Nat) : Option String :=
  match data with
  | [] => none
  | e :: rest =>
    let decoded : Option String :=
      if e = 0 ∨ e = 3 then some (utf8Decode rest)
      else if e = 1 then some (utf16Decode rest)
      else if e = 2 then some (utf16beDecode rest)
      else none
    match decoded with
    | none => none
    | some s =>
      let trimmed := jsTrim (Id3.truncAtNull s)
      if trimmed == "" then none else some trimmed

/-- The spec's search predicate: the track's title (display title: tag
title with filename fallback), artist or album contains the query
case-insensitively. -/
def matchesQuerySpec (q : String) (t : Playlist.Track) : Bool :=
  strContains (jsToLower (jsOr (t.metadata.map (·.title)) t.name)) (jsToLower q) ||
  strContains (jsToLower (jsOr (t.metadata.map (·.artist)) "")) (jsToLower q) ||
  strContains (jsToLower (jsOr (t.metadata.map (·.album)) "")) (jsToLower q)

end SpecSide


/-- In a view whose tracks carry pairwise-distinct ids, the id-based
`findIdx?` search used by `playNext`/`playPrevious` locates the last
element at index `length - 1`. -/
theorem findIdx_last_of_nodup {l : List Playlist.Track} {ct : Playlist.Track}
    (hnd : (l.map (·.id)).Nodup) (hlast : l.getLast? = some ct) :
    l.findIdx? (fun t => t.id == ct.id) = some (l.length - 1) := by
  induction l with
  | nil => simp at hlast
  | cons x rest ih =>
    cases rest with
    | nil =>
      simp only [List.getLast?_singleton] at hlast
      cases hlast
      simp [List.findIdx?_cons]
    | cons y rest' =>
      rw [List.getLast?_cons_cons] at hlast
      have hmem : ct ∈ y :: rest' :=
        List.mem_of_mem_getLast? (by rw [hlast]; rfl)
      have hnd' : ((y :: rest').map (·.id)).Nodup := by
        simpa using hnd.of_cons
      have hne : (x.id == ct.id) = false := by
        have hxid : x.id ∉ (y :: rest').map (·.id) := by
          have h := hnd
          simp only [List.map_cons, List.nodup_cons] at h
          simpa using h.1
        have : x.id ≠ ct.id := fun he => hxid (he ▸ List.mem_map_of_mem _ hmem)
        simpa using this
      have ih' := ih hnd' hlast
      rw [List.findIdx?_cons, if_neg (by simp [hne]), List.findIdx?_start_succ, ih']
      simp

/-- C9: `playNext`/`playPrevious` wrap around the current view: on the
view's last element (located, as the source does, by its id in an
id-distinct view) `playNext` returns and selects the first element; on the
first element `playPrevious` returns and selects the last; on an empty
view both return `none` and leave the state (hence the current track)
unchanged. -/
theorem cursor_wraparound (st : Playlist.State) :
    (st.viewPlaylist = [] →
      Playlist.playNext st = (none, st) ∧ Playlist.playPrevious st = (none, st)) ∧
    (∀ ct : Playlist.Track, st.currentTrack = some ct →
      (st.viewPlaylist.map (·.id)).Nodup →
      st.viewPlaylist.getLast? = some ct →
      (Playlist.playNext st).1 = st.viewPlaylist.head? ∧
      ((Playlist.playNext st).2).currentTrack = st.viewPlaylist.head?) ∧
    (∀ ct : Playlist.Track, st.currentTrack = some ct →
      st.viewPlaylist.head? = some ct →
      (Playlist.playPrevious st).1 = st.viewPlaylist.getLast? ∧
      ((Playlist.playPrevious st).2).currentTrack = st.viewPlaylist.getLast?) := by
  refine ⟨fun hempty => ?_, fun ct hct hnd hlast => ?_, fun ct hct hhead => ?_⟩
  · constructor <;> simp [Playlist.playNext, Playlist.playPrevious, hempty]
  · have hne : st.viewPlaylist ≠ [] := by
      intro he; rw [he] at hlast; cases hlast
    have hlen : st.viewPlaylist.length ≠ 0 := by
      have := List.length_pos.mpr hne; omega
    have hfind := findIdx_last_of_nodup hnd hlast
    have hcast : ((st.viewPlaylist.length - 1 : Nat) : Int) + 1 =
        (st.viewPlaylist.length : Int) := by omega
    constructor <;>
      simp only [Playlist.playNext, Playlist.loadTrack, if_neg hlen, hct, hfind,
        hcast, Int.emod_self, Int.toNat_zero, List.get?_zero]
  · have hne : st.viewPlaylist ≠ [] := by
      intro he; rw [he] at hhead; cases hhead
    have hlen : st.viewPlaylist.length ≠ 0 := by
      have := List.length_pos.mpr hne; omega
    have hfind : st.viewPlaylist.findIdx? (fun t => t.id == ct.id) = some 0 := by
      cases hv : st.viewPlaylist with
      | nil => exact absurd hv hne
      | cons a l =>
        rw [hv] at hhead
        simp only [List.head?_cons, Option.some.injEq] at hhead
        subst hhead
        simp [List.findIdx?_cons]
    have h0 : ((0 : Nat) : Int) ≠ -1 := by omega
    have hmod : (((0 : Nat) : Int) - 1 + (st.viewPlaylist.length : Int)) %
        (st.viewPlaylist.length : Int) = (st.viewPlaylist.length : Int) - 1 := by
      rw [Int.emod_eq_of_lt] <;> omega
    have htn : ((st.viewPlaylist.length : Int) - 1).toNat =
        st.viewPlaylist.length - 1 := by omega
    constructor <;>
      simp only [Playlist.playPrevious, Playlist.loadTrack, if_neg hlen, hct,
        hfind, if_neg h0, hmod, htn, List.get?_eq_getElem?,
        List.getLast?_eq_getElem?]

/-- C9 witness: a concrete three-track view exercising the empty case, the
last-to-first wrap and the first-to-last wrap. -/
theorem cursor_wraparound_witness :
    (Playlist.playNext
        { fullPlaylist := [], viewPlaylist := [], currentTrack := none,
          currentCategory := "all", searchQuery := "", playlists := [],
          favorites := [], playbackMode := "loop" } =
      (none,
        { fullPlaylist := [], viewPlaylist := [], currentTrack := none,
          currentCategory := "all", searchQuery := "", playlists := [],
          favorites := [], playbackMode := "loop" })) ∧
    ((Playlist.playNext
        { fullPlaylist := [],
          viewPlaylist :=
            [⟨0, "a", "p/a", none⟩, ⟨1, "b", "p/b", none⟩, ⟨2, "c", "p/c", none⟩],
          currentTrack := some ⟨2, "c", "p/c", none⟩,
          currentCategory := "all", searchQuery := "", playlists := [],
          favorites := [], playbackMode := "loop" }).1 =
      some ⟨0, "a", "p/a", none⟩) ∧
    ((Playlist.playPrevious
        { fullPlaylist := [],
          viewPlaylist :=
            [⟨0, "a", "p/a", none⟩, ⟨1, "b", "p/b", none⟩, ⟨2, "c", "p/c", none⟩],
          currentTrack := some ⟨0, "a", "p/a", none⟩,
          currentCategory := "all", searchQuery := "", playlists := [],
          favorites := [], playbackMode := "loop" }).1 =
      some ⟨2, "c", "p/c", none⟩) := by
  refine ⟨((cursor_wraparound _).1 rfl).1, ?_, ?_⟩
  · have h := ((cursor_wraparound
      { fullPlaylist := [],
        viewPlaylist :=
          [⟨0, "a", "p/a", none⟩, ⟨1, "b", "p/b", none⟩, ⟨2, "c", "p/c", none⟩],
        currentTrack := some ⟨2, "c", "p/c", none⟩,
        currentCategory := "all", searchQuery := "", playlists := [],
        favorites := [], playbackMode := "loop" }).2.1
      ⟨2, "c", "p/c", none⟩ rfl (by decide) rfl).1
    simpa using h
  · have h := ((cursor_wraparound
      { fullPlaylist := [],
        viewPlaylist :=
          [⟨0, "a", "p/a", none⟩, ⟨1, "b", "p/b", none⟩, ⟨2, "c", "p/c", none⟩],
        currentTrack := some ⟨0, "a", "p/a", none⟩,
        currentCategory := "all", searchQuery := "", playlists := [],
        favorites := [], playbackMode := "loop" }).2.2
      ⟨0, "a", "p/a", none⟩ rfl rfl).1
    simpa using h

/-- C10: on a non-empty view, with no current track or a current track
whose id matches no view entry, `playNext` returns and selects the view's
first element and `playPrevious` returns and selects the view's last
element. -/
theorem cursor_initial_selection (st : Playlist.State)
    (hne : st.viewPlaylist ≠ [])
    (h : st.currentTrack = none ∨ ∀ ct : Playlist.Track,
        st.currentTrack = some ct →
        st.viewPlaylist.findIdx? (fun t => t.id == ct.id) = none) :
    (Playlist.playNext st).1 = st.viewPlaylist.head? ∧
    ((Playlist.playNext st).2).currentTrack = st.viewPlaylist.head? ∧
    (Playlist.playPrevious st).1 = st.viewPlaylist.getLast? ∧
    ((Playlist.playPrevious st).2).currentTrack = st.viewPlaylist.getLast? := by
  have hlen : st.viewPlaylist.length ≠ 0 := by
    have := List.length_pos.mpr hne; omega
  have hidx : (match st.currentTrack with
      | some ct =>
        match st.viewPlaylist.findIdx? (fun t => t.id == ct.id) with
        | some i => (i : Int)
        | none => -1
      | none => -1) = (-1 : Int) := by
    rcases h with h | h
    · rw [h]
    · cases hc : st.currentTrack with
      | none => rfl
      | some ct => simp [h ct hc]
  have hmod : ((-1 : Int) + 1) % (st.viewPlaylist.length : Int) = 0 := by
    norm_num
  have htn : ((st.viewPlaylist.length : Int) - 1).toNat =
      st.viewPlaylist.length - 1 := by omega
  refine ⟨?_, ?_, ?_, ?_⟩ <;>
    simp only [Playlist.playNext, Playlist.playPrevious, Playlist.loadTrack,
      if_neg hlen, hidx, hmod, Int.toNat_zero, List.get?_zero, if_pos rfl,
      if_true, htn, List.get?_eq_getElem?, List.head?_eq_getElem?,
      List.getLast?_eq_getElem?]

/-- C10 witness: a two-track view with no current track. -/
theorem cursor_initial_selection_witness :
    ([⟨0, "a", "p/a", none⟩, ⟨1, "b", "p/b", none⟩] : List Playlist.Track) ≠ [] ∧
    (Playlist.playNext
        { fullPlaylist := [],
          viewPlaylist := [⟨0, "a", "p/a", none⟩, ⟨1, "b", "p/b", none⟩],
          currentTrack := none, currentCategory := "all", searchQuery := "",
          playlists := [], favorites := [], playbackMode := "loop" }).1 =
      some ⟨0, "a", "p/a", none⟩ ∧
    (Playlist.playPrevious
        { fullPlaylist := [],
          viewPlaylist := [⟨0, "a", "p/a", none⟩, ⟨1, "b", "p/b", none⟩],
          currentTrack := none, currentCategory := "all", searchQuery := "",
          playlists := [], favorites := [], playbackMode := "loop" }).1 =
      some ⟨1, "b", "p/b", none⟩ := by
  have h := cursor_initial_selection
    { fullPlaylist := [],
      viewPlaylist := [⟨0, "a", "p/a", none⟩, ⟨1, "b", "p/b", none⟩],
      currentTrack := none, currentCategory := "all", searchQuery := "",
      playlists := [], favorites := [], playbackMode := "loop" }
    (by decide) (Or.inl rfl)
  exact ⟨by decide, by simpa using h.1, by simpa using h.2.2.1⟩

/-- C1 counterexample: with the full list `[p1, p2]`, current track `p1`,
and category `favorite` whose favorites set holds only `p2`, the derived
view is `[p2]` yet the current track stays `p1` — i.e. after `updateView`
the non-null current track points at an entry absent from the derived
view, because the source's fallback test consults the full list, not the
view. -/
theorem view_cursor_counterexample :
    (Playlist.updateView id
        { fullPlaylist := [⟨0, "one", "p1", none⟩, ⟨1, "two", "p2", none⟩],
          viewPlaylist := [⟨0, "one", "p1", none⟩, ⟨1, "two", "p2", none⟩],
          currentTrack := some ⟨0, "one", "p1", none⟩,
          currentCategory := "favorite", searchQuery := "", playlists := [],
          favorites := ["p2"], playbackMode := "loop" }).currentTrack =
      some ⟨0, "one", "p1", none⟩ ∧
    (Playlist.updateView id
        { fullPlaylist := [⟨0, "one", "p1", none⟩, ⟨1, "two", "p2", none⟩],
          viewPlaylist := [⟨0, "one", "p1", none⟩, ⟨1, "two", "p2", none⟩],
          currentTrack := some ⟨0, "one", "p1", none⟩,
          currentCategory := "favorite", searchQuery := "", playlists := [],
          favorites := ["p2"], playbackMode := "loop" }).viewPlaylist =
      [⟨1, "two", "p2", none⟩] := by
  constructor <;> rfl

/-- C1 (amended): on every derivation, if the current track is null or its
path is absent from the *full* list, the cursor falls back to the derived
view's first element (`none` on an empty view); if its path is still in
the full list the cursor is kept unchanged — even when the active
category's view no longer contains it. -/
theorem view_cursor_fallback
    (shuffle : List Playlist.Track → List Playlist.Track)
    (st : Playlist.State) :
    ((st.currentTrack = none ∨ ∀ ct : Playlist.Track, st.currentTrack = some ct →
        st.fullPlaylist.all (fun t => t.path != ct.path)) →
      (Playlist.updateView shuffle st).currentTrack =
        (Playlist.updateView shuffle st).viewPlaylist.head?) ∧
    (∀ ct : Playlist.Track, st.currentTrack = some ct →
      st.fullPlaylist.any (fun t => t.path == ct.path) →
      (Playlist.updateView shuffle st).currentTrack = some ct) := by
  constructor
  · intro h
    have hcond : (st.currentTrack.isNone ||
        !(st.fullPlaylist.any fun t =>
          t.path == (st.currentTrack.map (·.path)).getD "")) = true := by
      rcases h with h | h
      · simp [h]
      · cases hc : st.currentTrack with
        | none => simp
        | some ct =>
          have hall := h ct hc
          simp only [List.all_eq_true, bne_iff_ne, ne_eq] at hall
          simp only [Option.isNone_some, Bool.false_or, Bool.not_eq_true',
            List.any_eq_false, Option.map_some, Option.getD_some]
          intro t ht
          simpa using hall t ht
    simp only [Playlist.updateView, Playlist.loadTrack]
    simp only [hcond, if_true]
  · intro ct hct hany
    simp only [Playlist.updateView, Playlist.loadTrack, hct]
    have hcond : ((some ct : Option Playlist.Track).isNone ||
        !(st.fullPlaylist.any fun t =>
          t.path == ((some ct : Option Playlist.Track).map (·.path)).getD "")) =
        false := by
      simp [hany]
    simp only [hcond, Bool.false_eq_true, if_false]

/-- C1 witness: the amended fallback applied to a state whose current
track's path has vanished from the full list. -/
theorem view_cursor_fallback_witness :
    (Playlist.updateView id
        { fullPlaylist := [⟨0, "two", "p2", none⟩],
          viewPlaylist := [], currentTrack := some ⟨7, "gone", "p9", none⟩,
          currentCategory := "all", searchQuery := "", playlists := [],
          favorites := [], playbackMode := "loop" }).currentTrack =
      (Playlist.updateView id
        { fullPlaylist := [⟨0, "two", "p2", none⟩],
          viewPlaylist := [], currentTrack := some ⟨7, "gone", "p9", none⟩,
          currentCategory := "all", searchQuery := "", playlists := [],
          favorites := [], playbackMode := "loop" }).viewPlaylist.head? ∧
    (Playlist.updateView id
        { fullPlaylist := [⟨0, "two", "p2", none⟩],
          viewPlaylist := [], currentTrack := some ⟨7, "gone", "p9", none⟩,
          currentCategory := "all", searchQuery := "", playlists := [],
          favorites := [], playbackMode := "loop" }).currentTrack =
      some ⟨0, "two", "p2", none⟩ := by
  refine ⟨(view_cursor_fallback id _).1 (Or.inr ?_), by decide⟩
  intro ct hct
  cases hct
  decide

/-- An ASCII `toLowerCase` image of a non-empty string is non-empty. -/
theorem jsToLower_ne_empty {s : String} (h : s ≠ "") : JsUtil.jsToLower s ≠ "" := by
  intro he
  apply h
  have hd : s.data.map Char.toLower = [] := congrArg String.data he
  simp only [List.map_eq_nil_iff] at hd
  exact String.ext (by simp [hd])

/-- C7: view derivation composes category, search and mode.  With category
`favorite`, empty search and mode `loop` the view is exactly the
favorites-filtered full list in scan order; a non-empty (already-trimmed)
query passed through `setSearchQuery` further restricts it to the tracks
whose title, artist or album contains the query case-insensitively; with
mode `shuffle` the view is a permutation of the same filtered set, for any
realisation of the random comparator (JavaScript's `sort` always returns a
rearrangement). -/
theorem view_composition (st : Playlist.State)
    (shuffle : List Playlist.Track → List Playlist.Track) :
    (st.currentCategory = "favorite" → st.searchQuery = "" →
      st.playbackMode = "loop" →
      (Playlist.updateView shuffle st).viewPlaylist =
        st.fullPlaylist.filter (fun t => st.favorites.contains t.path)) ∧
    (∀ q : String, st.currentCategory = "favorite" → st.playbackMode = "loop" →
      JsUtil.jsTrim q = q → q ≠ "" →
      (Playlist.setSearchQuery shuffle q st).viewPlaylist =
        (st.fullPlaylist.filter (fun t => st.favorites.contains t.path)).filter
          (SpecSide.matchesQuerySpec q)) ∧
    ((∀ l, (shuffle l).Perm l) → st.currentCategory = "favorite" →
      st.searchQuery = "" → st.playbackMode = "shuffle" →
      ((Playlist.updateView shuffle st).viewPlaylist).Perm
        (st.fullPlaylist.filter (fun t => st.favorites.contains t.path))) := by
  refine ⟨fun hcat hq hmode => ?_, fun q hcat hmode htrim hne => ?_,
    fun hperm hcat hq hmode => ?_⟩
  · simp only [Playlist.updateView, Playlist.loadTrack, hcat, hq, hmode]
    split <;> rfl
  · have hlq : (JsUtil.jsToLower q != "") = true := by
      simpa using jsToLower_ne_empty hne
    simp only [Playlist.setSearchQuery, htrim, Playlist.updateView,
      Playlist.loadTrack, hcat, hmode, hlq]
    split <;> rfl
  · simp only [Playlist.updateView, Playlist.loadTrack, hcat, hq, hmode]
    split <;> exact hperm _

/-- C7 witness: two favorite tracks among three, queried for "ab"
case-insensitively, and a reversing realisation of the shuffle. -/
theorem view_composition_witness :
    ((Playlist.updateView id
        { fullPlaylist :=
            [⟨0, "x", "p0", some ⟨"Abba", "A1", "Al1"⟩⟩,
             ⟨1, "y", "p1", some ⟨"Beta", "A2", "Al2"⟩⟩,
             ⟨2, "z", "p2", some ⟨"Gamma", "aB", "Al3"⟩⟩],
          viewPlaylist := [], currentTrack := none,
          currentCategory := "favorite", searchQuery := "", playlists := [],
          favorites := ["p0", "p2"], playbackMode := "loop" }).viewPlaylist =
      [⟨0, "x", "p0", some ⟨"Abba", "A1", "Al1"⟩⟩,
       ⟨2, "z", "p2", some ⟨"Gamma", "aB", "Al3"⟩⟩]) ∧
    ((Playlist.setSearchQuery id "ab"
        { fullPlaylist :=
            [⟨0, "x", "p0", some ⟨"Abba", "A1", "Al1"⟩⟩,
             ⟨1, "y", "p1", some ⟨"Beta", "A2", "Al2"⟩⟩,
             ⟨2, "z", "p2", some ⟨"Gamma", "aB", "Al3"⟩⟩],
          viewPlaylist := [], currentTrack := none,
          currentCategory := "favorite", searchQuery := "", playlists := [],
          favorites := ["p0", "p2"], playbackMode := "loop" }).viewPlaylist =
      [⟨0, "x", "p0", some ⟨"Abba", "A1", "Al1"⟩⟩,
       ⟨2, "z", "p2", some ⟨"Gamma", "aB", "Al3"⟩⟩]) ∧
    ((Playlist.updateView List.reverse
        { fullPlaylist :=
            [⟨0, "x", "p0", some ⟨"Abba", "A1", "Al1"⟩⟩,
             ⟨1, "y", "p1", some ⟨"Beta", "A2", "Al2"⟩⟩,
             ⟨2, "z", "p2", some ⟨"Gamma", "aB", "Al3"⟩⟩],
          viewPlaylist := [], currentTrack := none,
          currentCategory := "favorite", searchQuery := "", playlists := [],
          favorites := ["p0", "p2"], playbackMode := "shuffle" }).viewPlaylist.Perm
      [⟨0, "x", "p0", some ⟨"Abba", "A1", "Al1"⟩⟩,
       ⟨2, "z", "p2", some ⟨"Gamma", "aB", "Al3"⟩⟩]) := by
  refine ⟨?_, ?_, ?_⟩
  · have h := (view_composition
      { fullPlaylist :=
          [⟨0, "x", "p0", some ⟨"Abba", "A1", "Al1"⟩⟩,
           ⟨1, "y", "p1", some ⟨"Beta", "A2", "Al2"⟩⟩,
           ⟨2, "z", "p2", some ⟨"Gamma", "aB", "Al3"⟩⟩],
        viewPlaylist := [], currentTrack := none,
        currentCategory := "favorite", searchQuery := "", playlists := [],
        favorites := ["p0", "p2"], playbackMode := "loop" } id).1 rfl rfl rfl
    rw [h]; decide
  · have h := (view_composition
      { fullPlaylist :=
          [⟨0, "x", "p0", some ⟨"Abba", "A1", "Al1"⟩⟩,
           ⟨1, "y", "p1", some ⟨"Beta", "A2", "Al2"⟩⟩,
           ⟨2, "z", "p2", some ⟨"Gamma", "aB", "Al3"⟩⟩],
        viewPlaylist := [], currentTrack := none,
        currentCategory := "favorite", searchQuery := "", playlists := [],
        favorites := ["p0", "p2"], playbackMode := "loop" } id).2.1 "ab" rfl rfl
      (by decide) (by decide)
    rw [h]; decide
  · have h := (view_composition
      { fullPlaylist :=
          [⟨0, "x", "p0", some ⟨"Abba", "A1", "Al1"⟩⟩,
           ⟨1, "y", "p1", some ⟨"Beta", "A2", "Al2"⟩⟩,
           ⟨2, "z", "p2", some ⟨"Gamma", "aB", "Al3"⟩⟩],
        viewPlaylist := [], currentTrack := none,
        currentCategory := "favorite", searchQuery := "", playlists := [],
        favorites := ["p0", "p2"], playbackMode := "shuffle" }
      List.reverse).2.2 (fun l => List.reverse_perm l) rfl rfl rfl
    simpa using h

/-- Replacing an existing `Map` entry in place keeps the key sequence. -/
theorem mapSet_paths_of_any {m : List Scan.VFile} {f : Scan.VFile}
    (h : (m.any fun g => g.path == f.path) = true) :
    (Scan.mapSet m f).map (·.path) = m.map (·.path) := by
  simp only [Scan.mapSet, h, if_true]
  rw [List.map_map]
  apply List.map_congr_left
  intro g hg
  by_cases hgf : (g.path == f.path) = true
  · simp only [Function.comp_apply, hgf, if_true]
    exact (beq_iff_eq.mp hgf).symm
  · simp only [Function.comp_apply, hgf, Bool.false_eq_true, if_false]

/-- `Map.set` keyed by path preserves distinctness of the keys. -/
theorem mapSet_nodup {m : List Scan.VFile} {f : Scan.VFile}
    (h : (m.map (·.path)).Nodup) : ((Scan.mapSet m f).map (·.path)).Nodup := by
  by_cases hc : (m.any fun g => g.path == f.path) = true
  · rw [mapSet_paths_of_any hc]; exact h
  · have hc' : (m.any fun g => g.path == f.path) = false := by
      simpa using hc
    simp only [Scan.mapSet, hc', Bool.false_eq_true, if_false]
    rw [List.map_append]
    simp only [List.nodup_append, List.map_cons, List.map_nil]
    refine ⟨h, List.nodup_singleton _, ?_⟩
    intro p hp
    simp only [List.mem_singleton]
    obtain ⟨g, hg, rfl⟩ := List.mem_map.mp hp
    have := List.any_eq_false.mp hc' g hg
    simpa using this

/-- The collected file list has pairwise-distinct paths. -/
theorem collect_nodup (files : List Scan.VFile) (mfp : String) :
    ((Scan.collect files mfp).map (·.path)).Nodup := by
  suffices h : ∀ acc : List Scan.VFile, (acc.map (·.path)).Nodup →
      ((files.foldl (Scan.collectStep mfp) acc).map (·.path)).Nodup from
    h [] (by simp)
  induction files with
  | nil => exact fun acc h => h
  | cons f rest ih =>
    intro acc hacc
    rw [List.foldl_cons]
    apply ih
    by_cases hc : (Scan.isSupportedAudioFile f.name &&
        JsUtil.jsStartsWith f.path mfp) = true
    · simp only [Scan.collectStep, hc, if_true]
      exact mapSet_nodup hacc
    · have hc' : (Scan.isSupportedAudioFile f.name &&
          JsUtil.jsStartsWith f.path mfp) = false := by simpa using hc
      simp only [Scan.collectStep, hc', Bool.false_eq_true, if_false]
      exact hacc

/-- Track construction preserves the file paths, position by position. -/
theorem trackFromFile_paths (l : List Scan.VFile) (g : String → Option Playlist.Meta) :
    ((l.enum.map fun p => Scan.trackFromFile g p.1 p.2).map (·.path)) =
      l.map (·.path) := by
  rw [List.map_map]
  have h1 : ((fun t : Playlist.Track => t.path) ∘
      fun p : Nat × Scan.VFile => Scan.trackFromFile g p.1 p.2) =
      ((fun f : Scan.VFile => f.path) ∘ Prod.snd) := rfl
  rw [h1, ← List.map_map, List.enum_map_snd]

/-- Any track found inside a playlist produced by `addToPlaylists` was
already in one of the playlists or is the inserted track. -/
theorem addToPlaylists_mem {pls : List (String × List Playlist.Track)}
    {name : String} {u : Playlist.Track} {e : String × List Playlist.Track}
    {x : Playlist.Track}
    (he : e ∈ Scan.addToPlaylists pls name u) (hx : x ∈ e.2) :
    (∃ e₀ ∈ pls, x ∈ e₀.2) ∨ x = u := by
  unfold Scan.addToPlaylists at he
  by_cases hc : (pls.any fun e => e.1 == name) = true
  · rw [if_pos hc] at he
    obtain ⟨e₀, he₀, hfe⟩ := List.mem_map.mp he
    by_cases hkey : (e₀.1 == name) = true
    · rw [if_pos hkey] at hfe
      by_cases hdup : (e₀.2.any fun y => y.path == u.path) = true
      · rw [if_pos hdup] at hfe
        subst hfe
        exact Or.inl ⟨e₀, he₀, hx⟩
      · rw [if_neg hdup] at hfe
        subst hfe
        rcases List.mem_append.mp hx with h | h
        · exact Or.inl ⟨e₀, he₀, h⟩
        · exact Or.inr (List.mem_singleton.mp h)
    · rw [if_neg hkey] at hfe
      subst hfe
      exact Or.inl ⟨e₀, he₀, hx⟩
  · rw [if_neg hc] at he
    rcases List.mem_append.mp he with h | h
    · exact Or.inl ⟨e, h, hx⟩
    · right
      rw [List.mem_singleton.mp h] at hx
      exact List.mem_singleton.mp hx

/-- A track already present in a named playlist stays in it (possibly in a
grown list) across a later insertion. -/
theorem addToPlaylists_preserve {pls : List (String × List Playlist.Track)}
    {n : String} {l : List Playlist.Track} {t : Playlist.Track}
    (hmem : (n, l) ∈ pls) (ht : t ∈ l) (name : String) (u : Playlist.Track) :
    ∃ l', (n, l') ∈ Scan.addToPlaylists pls name u ∧ t ∈ l' := by
  unfold Scan.addToPlaylists
  by_cases hc : (pls.any fun e => e.1 == name) = true
  · rw [if_pos hc]
    have hmem' := List.mem_map_of_mem
      (fun e : String × List Playlist.Track =>
        if e.1 == name then
          (e.1, if e.2.any (fun y => y.path == u.path) then e.2 else e.2 ++ [u])
        else e) hmem
    by_cases hkey : ((n, l).1 == name) = true
    · by_cases hdup : (l.any fun y => y.path == u.path) = true
      · refine ⟨l, ?_, ht⟩
        simpa [hkey, hdup] using hmem'
      · refine ⟨l ++ [u], ?_, List.mem_append_left _ ht⟩
        simpa [hkey, hdup] using hmem'
    · refine ⟨l, ?_, ht⟩
      simpa [hkey] using hmem'
  · rw [if_neg hc]
    exact ⟨l, List.mem_append_left _ hmem, ht⟩

/-- When no playlist yet holds a track with the inserted track's path, the
insertion puts the track into the playlist of the given name. -/
theorem addToPlaylists_self {pls : List (String × List Playlist.Track)}
    {name : String} {u : Playlist.Track}
    (hfresh : ∀ e ∈ pls, ∀ x ∈ e.2, x.path ≠ u.path) :
    ∃ l, (name, l) ∈ Scan.addToPlaylists pls name u ∧ u ∈ l := by
  unfold Scan.addToPlaylists
  by_cases hc : (pls.any fun e => e.1 == name) = true
  · rw [if_pos hc]
    obtain ⟨e₀, he₀, hkey⟩ := List.any_eq_true.mp hc
    have hname : e₀.1 = name := by simpa using hkey
    have hdup : (e₀.2.any fun y => y.path == u.path) = false := by
      simp only [List.any_eq_false]
      intro x hx
      simpa using hfresh e₀ he₀ x hx
    have hmem' := List.mem_map_of_mem
      (fun e : String × List Playlist.Track =>
        if e.1 == name then
          (e.1, if e.2.any (fun y => y.path == u.path) then e.2 else e.2 ++ [u])
        else e) he₀
    refine ⟨e₀.2 ++ [u], ?_, List.mem_append_right _ (List.mem_singleton_self u)⟩
    simpa [hkey, hdup, hname] using hmem'
  · rw [if_neg hc]
    exact ⟨[u], List.mem_append_right _ (List.mem_singleton_self _),
      List.mem_singleton_self u⟩

/-- `addToPlaylists` keeps the playlist names pairwise distinct. -/
theorem addToPlaylists_keys {pls : List (String × List Playlist.Track)}
    {name : String} {u : Playlist.Track}
    (h : (pls.map Prod.fst).Nodup) :
    ((Scan.addToPlaylists pls name u).map Prod.fst).Nodup := by
  unfold Scan.addToPlaylists
  by_cases hc : (pls.any fun e => e.1 == name) = true
  · rw [if_pos hc, List.map_map]
    have heq : (Prod.fst ∘ fun e : String × List Playlist.Track =>
        if e.1 == name then
          (e.1, if e.2.any (fun y => y.path == u.path) then e.2 else e.2 ++ [u])
        else e) = Prod.fst := by
      funext e
      show (if e.1 == name then
          (e.1, if e.2.any (fun y => y.path == u.path) then e.2 else e.2 ++ [u])
        else e).1 = e.1
      by_cases hk : (e.1 == name) = true
      · rw [if_pos hk]
      · rw [if_neg hk]
    rw [heq]; exact h
  · rw [if_neg hc, List.map_append]
    simp only [List.nodup_append, List.map_cons, List.map_nil]
    refine ⟨h, List.nodup_singleton _, ?_⟩
    intro k hk
    simp only [List.mem_singleton]
    obtain ⟨e, he, rfl⟩ := List.mem_map.mp hk
    have hc' : (pls.any fun e => e.1 == name) = false := Bool.eq_false_iff.mpr hc
    have := List.any_eq_false.mp hc' e he
    simpa using this

/-- Provenance: every track inside the grouped playlists either was there
before the fold or is one of the folded tracks with a multi-segment
relative path. -/
theorem groupFold_mem {mfp : String} :
    ∀ (tracks : List Playlist.Track) (pls₀ : List (String × List Playlist.Track))
      (e : String × List Playlist.Track) (x : Playlist.Track),
      e ∈ tracks.foldl (Scan.groupStep mfp) pls₀ → x ∈ e.2 →
      (∃ e₀ ∈ pls₀, x ∈ e₀.2) ∨
        (x ∈ tracks ∧ 1 < (Scan.pathParts mfp x.path).length) := by
  intro tracks
  induction tracks with
  | nil =>
    intro pls₀ e x he hx
    exact Or.inl ⟨e, he, hx⟩
  | cons t rest ih =>
    intro pls₀ e x he hx
    rw [List.foldl_cons] at he
    rcases ih _ e x he hx with h | h
    · obtain ⟨e₀, he₀, hx₀⟩ := h
      simp only [Scan.groupStep] at he₀
      by_cases hp : (Scan.pathParts mfp t.path).length > 1
      · rw [if_pos hp] at he₀
        rcases addToPlaylists_mem he₀ hx₀ with h' | h'
        · exact Or.inl h'
        · subst h'
          exact Or.inr ⟨List.mem_cons_self _ _, hp⟩
      · rw [if_neg hp] at he₀
        exact Or.inl ⟨e₀, he₀, hx₀⟩
    · exact Or.inr ⟨List.mem_cons_of_mem _ h.1, h.2⟩

/-- Stability: a track already inside a named playlist remains inside that
name's playlist across the whole grouping fold. -/
theorem groupFold_preserve {mfp : String} :
    ∀ (tracks : List Playlist.Track) (pls₀ : List (String × List Playlist.Track))
      (n : String) (t : Playlist.Track),
      (∃ l, (n, l) ∈ pls₀ ∧ t ∈ l) →
      ∃ l, (n, l) ∈ tracks.foldl (Scan.groupStep mfp) pls₀ ∧ t ∈ l := by
  intro tracks
  induction tracks with
  | nil => exact fun pls₀ n t h => h
  | cons u rest ih =>
    intro pls₀ n t h
    obtain ⟨l, hl, htl⟩ := h
    rw [List.foldl_cons]
    apply ih
    simp only [Scan.groupStep]
    by_cases hp : (Scan.pathParts mfp u.path).length > 1
    · rw [if_pos hp]
      exact addToPlaylists_preserve hl htl _ u
    · rw [if_neg hp]
      exact ⟨l, hl, htl⟩

/-- Insertion: a folded track with a multi-segment relative path ends up in
the playlist named after its first segment, provided the folded tracks have
pairwise-distinct paths none of which already occurs in the accumulator. -/
theorem groupFold_insert {mfp : String} :
    ∀ (tracks : List Playlist.Track) (pls₀ : List (String × List Playlist.Track))
      (t : Playlist.Track),
      t ∈ tracks → 1 < (Scan.pathParts mfp t.path).length →
      (tracks.map (·.path)).Nodup →
      (∀ e ∈ pls₀, ∀ x ∈ e.2, x.path ∉ tracks.map (·.path)) →
      ∃ l, ((Scan.pathParts mfp t.path).headD "", l) ∈
          tracks.foldl (Scan.groupStep mfp) pls₀ ∧ t ∈ l := by
  intro tracks
  induction tracks with
  | nil => intro pls₀ t h; cases h
  | cons u rest ih =>
    intro pls₀ t hmem hparts hnd hfresh
    rw [List.foldl_cons]
    rcases List.mem_cons.mp hmem with rfl | hmemr
    · apply groupFold_preserve
      simp only [Scan.groupStep]
      rw [if_pos hparts]
      apply addToPlaylists_self
      intro e he x hx hxp
      exact hfresh e he x hx (by simp [hxp])
    · have hnd' : (rest.map (·.path)).Nodup := by
        simpa using (List.nodup_cons.mp (by simpa using hnd)).2
      have hupath : u.path ∉ rest.map (·.path) :=
        (List.nodup_cons.mp (by simpa using hnd)).1
      apply ih _ t hmemr hparts hnd'
      intro e he x hx
      simp only [Scan.groupStep] at he
      by_cases hp : (Scan.pathParts mfp u.path).length > 1
      · rw [if_pos hp] at he
        rcases addToPlaylists_mem he hx with ⟨e₀, he₀, hx₀⟩ | rfl
        · intro hc
          exact hfresh e₀ he₀ x hx₀ (List.mem_cons_of_mem _ hc)
        · exact hupath
      · rw [if_neg hp] at he
        intro hc
        exact hfresh e he x hx (List.mem_cons_of_mem _ hc)

/-- The grouping fold keeps playlist names pairwise distinct. -/
theorem groupFold_keys {mfp : String} :
    ∀ (tracks : List Playlist.Track) (pls₀ : List (String × List Playlist.Track)),
      ((pls₀.map Prod.fst).Nodup) →
      (((tracks.foldl (Scan.groupStep mfp) pls₀).map Prod.fst)).Nodup := by
  intro tracks
  induction tracks with
  | nil => exact fun pls₀ h => h
  | cons u rest ih =>
    intro pls₀ h
    rw [List.foldl_cons]
    apply ih
    simp only [Scan.groupStep]
    by_cases hp : (Scan.pathParts mfp u.path).length > 1
    · rw [if_pos hp]
      exact addToPlaylists_keys h
    · rw [if_neg hp]
      exact h

/-- C8: scanning a non-empty root groups tracks by first path segment under
the root: the full list enumerates exactly the collected files (in scan
order), sub-playlist names are pairwise distinct (one playlist per
subfolder), a track whose relative path has at most one segment (a file
directly in the root) appears in no named sub-playlist, and a track whose
relative path has more than one segment appears in the sub-playlist named
by its first segment. -/
theorem scan_grouping (files : List Scan.VFile) (musicFolderPath : String)
    (getMeta : String → Option Playlist.Meta)
    (hmfp : JsUtil.jsTrim musicFolderPath ≠ "") :
    ((Scan.loadFullPlaylist files musicFolderPath getMeta).1.map (·.path) =
      (Scan.collect files (Scan.normalizePath musicFolderPath)).map (·.path)) ∧
    (((Scan.loadFullPlaylist files musicFolderPath getMeta).2.map Prod.fst).Nodup) ∧
    (∀ t ∈ (Scan.loadFullPlaylist files musicFolderPath getMeta).1,
      (Scan.pathParts (Scan.normalizePath musicFolderPath) t.path).length ≤ 1 →
      ∀ e ∈ (Scan.loadFullPlaylist files musicFolderPath getMeta).2,
        ∀ x ∈ e.2, x.path ≠ t.path) ∧
    (∀ t ∈ (Scan.loadFullPlaylist files musicFolderPath getMeta).1,
      1 < (Scan.pathParts (Scan.normalizePath musicFolderPath) t.path).length →
      ∃ l, ((Scan.pathParts (Scan.normalizePath musicFolderPath) t.path).headD "",
          l) ∈ (Scan.loadFullPlaylist files musicFolderPath getMeta).2 ∧
        t ∈ l) := by
  have hcond : (JsUtil.jsTrim musicFolderPath == "") = false :=
    beq_eq_false_iff_ne.mpr hmfp
  have h1 : (Scan.loadFullPlaylist files musicFolderPath getMeta).1 =
      (Scan.collect files (Scan.normalizePath musicFolderPath)).enum.map
        (fun p => Scan.trackFromFile getMeta p.1 p.2) := by
    simp only [Scan.loadFullPlaylist, hcond, Bool.false_eq_true, if_false]
  have h2 : (Scan.loadFullPlaylist files musicFolderPath getMeta).2 =
      Scan.buildPlaylists (Scan.normalizePath musicFolderPath)
        ((Scan.collect files (Scan.normalizePath musicFolderPath)).enum.map
          (fun p => Scan.trackFromFile getMeta p.1 p.2)) := by
    simp only [Scan.loadFullPlaylist, hcond, Bool.false_eq_true, if_false]
  have hndfull : (((Scan.collect files
      (Scan.normalizePath musicFolderPath)).enum.map
        (fun p => Scan.trackFromFile getMeta p.1 p.2)).map (·.path)).Nodup := by
    rw [trackFromFile_paths]
    exact collect_nodup files _
  refine ⟨?_, ?_, ?_, ?_⟩
  · rw [h1, trackFromFile_paths]
  · rw [h2]
    exact groupFold_keys _ [] (by simp)
  · intro t ht hparts e he x hx hxp
    rw [h2] at he
    rcases groupFold_mem _ [] e x he hx with ⟨e₀, he₀, _⟩ | ⟨_, hxparts⟩
    · simp at he₀
    · rw [hxp] at hxparts
      omega
  · intro t ht hparts
    rw [h1] at ht
    rw [h2]
    exact groupFold_insert _ [] t ht hparts hndfull
      (fun e he => absurd he (List.not_mem_nil e))

/-- C8 witness: the spec's end-to-end scenario `A/song1.mp3`, `A/song2.mp3`,
`B/song3.mp3` and a root-level `song4.mp3` under root `Music`, yielding
sub-playlists `A = [song1, song2]`, `B = [song3]` and a four-track full
list with `song4` in no sub-playlist. -/
theorem scan_grouping_witness :
    JsUtil.jsTrim "Music" ≠ "" ∧
    Scan.loadFullPlaylist
        [⟨"Music/A/song1.mp3", "song1.mp3", "song1"⟩,
         ⟨"Music/A/song2.mp3", "song2.mp3", "song2"⟩,
         ⟨"Music/B/song3.mp3", "song3.mp3", "song3"⟩,
         ⟨"Music/song4.mp3", "song4.mp3", "song4"⟩] "Music" (fun _ => none) =
      ([⟨0, "song1", "Music/A/song1.mp3", some ⟨"song1", "未知艺术家", "未知专辑"⟩⟩,
        ⟨1, "song2", "Music/A/song2.mp3", some ⟨"song2", "未知艺术家", "未知专辑"⟩⟩,
        ⟨2, "song3", "Music/B/song3.mp3", some ⟨"song3", "未知艺术家", "未知专辑"⟩⟩,
        ⟨3, "song4", "Music/song4.mp3", some ⟨"song4", "未知艺术家", "未知专辑"⟩⟩],
       [("A",
          [⟨0, "song1", "Music/A/song1.mp3", some ⟨"song1", "未知艺术家", "未知专辑"⟩⟩,
           ⟨1, "song2", "Music/A/song2.mp3", some ⟨"song2", "未知艺术家", "未知专辑"⟩⟩]),
        ("B",
          [⟨2, "song3", "Music/B/song3.mp3",
             some ⟨"song3", "未知艺术家", "未知专辑"⟩⟩])]) ∧
    (∃ l, ("A", l) ∈ (Scan.loadFullPlaylist
        [⟨"Music/A/song1.mp3", "song1.mp3", "song1"⟩,
         ⟨"Music/A/song2.mp3", "song2.mp3", "song2"⟩,
         ⟨"Music/B/song3.mp3", "song3.mp3", "song3"⟩,
         ⟨"Music/song4.mp3", "song4.mp3", "song4"⟩] "Music" (fun _ => none)).2 ∧
      (⟨0, "song1", "Music/A/song1.mp3",
        some ⟨"song1", "未知艺术家", "未知专辑"⟩⟩ : Playlist.Track) ∈ l) := by
  refine ⟨by decide, by decide, ?_⟩
  have h := (scan_grouping
    [⟨"Music/A/song1.mp3", "song1.mp3", "song1"⟩,
     ⟨"Music/A/song2.mp3", "song2.mp3", "song2"⟩,
     ⟨"Music/B/song3.mp3", "song3.mp3", "song3"⟩,
     ⟨"Music/song4.mp3", "song4.mp3", "song4"⟩] "Music" (fun _ => none)
    (by decide)).2.2.2
    ⟨0, "song1", "Music/A/song1.mp3", some ⟨"song1", "未知艺术家", "未知专辑"⟩⟩
    (by decide) (by decide)
  have he : ((Scan.pathParts (Scan.normalizePath "Music")
      "Music/A/song1.mp3").headD "") = "A" := by decide
  rw [he] at h
  exact h

/-- C2: a frame header's 4-byte size field is decoded sync-safe (7 bits per
byte, `((b0*128+b1)*128+b2)*128+b3`) when the tag's major version byte is
≥ 4 and as a plain big-endian 32-bit integer when it is ≤ 3; the overall
tag size is always the sync-safe value of bytes 6..9, which bounds the
frame walk of `parseID3v2`. -/
theorem frame_size_decoding :
    (∀ (dv : List Nat) (off : Nat) (fr : Id3.Frame),
      Id3.readFrame dv off = some fr →
      fr.size =
        if 4 ≤ Id3.getUint8 dv 3 then
          ((Id3.getUint8 dv (off + 4) * 128 + Id3.getUint8 dv (off + 5)) * 128 +
            Id3.getUint8 dv (off + 6)) * 128 + Id3.getUint8 dv (off + 7)
        else
          ((Id3.getUint8 dv (off + 4) * 256 + Id3.getUint8 dv (off + 5)) * 256 +
            Id3.getUint8 dv (off + 6)) * 256 + Id3.getUint8 dv (off + 7)) ∧
    (∀ dv : List Nat, Id3.readSyncSafeInt dv 6 =
      ((Id3.getUint8 dv 6 * 128 + Id3.getUint8 dv 7) * 128 +
        Id3.getUint8 dv 8) * 128 + Id3.getUint8 dv 9) ∧
    (∀ (mkUrl : List Nat → String → String) (dv : List Nat),
      10 ≤ dv.length → Id3.readString dv 0 3 = "ID3" →
      2 ≤ Id3.getUint8 dv 3 → Id3.getUint8 dv 3 ≤ 4 →
      Id3.getUint8 dv 5 &&& 0x40 = 0 →
      Id3.parseID3v2 mkUrl dv =
        Id3.walkFrames mkUrl dv
          (((Id3.getUint8 dv 6 * 128 + Id3.getUint8 dv 7) * 128 +
            Id3.getUint8 dv 8) * 128 + Id3.getUint8 dv 9) 10 0
          Id3.DEFAULT_METADATA) := by
  have hss : ∀ (l : List Nat) (o : Nat), Id3.readSyncSafeInt l o =
      ((Id3.getUint8 l o * 128 + Id3.getUint8 l (o + 1)) * 128 +
        Id3.getUint8 l (o + 2)) * 128 + Id3.getUint8 l (o + 3) := by
    intro l o
    show (((0 * 128 + Id3.getUint8 l o) * 128 + Id3.getUint8 l (o + 1)) * 128 +
        Id3.getUint8 l (o + 2)) * 128 + Id3.getUint8 l (o + 3) = _
    ring
  have hu32 : ∀ (l : List Nat) (o : Nat), Id3.getUint32 l o =
      ((Id3.getUint8 l o * 256 + Id3.getUint8 l (o + 1)) * 256 +
        Id3.getUint8 l (o + 2)) * 256 + Id3.getUint8 l (o + 3) := fun _ _ => rfl
  refine ⟨?_, fun dv => hss dv 6, ?_⟩
  · intro dv off fr h
    simp only [Id3.readFrame] at h
    by_cases h10 : off + 10 > dv.length
    · rw [if_pos h10] at h; cases h
    · rw [if_neg h10] at h
      by_cases hid : (!Id3.frameIdOk (Id3.readString dv off 4)) = true
      · rw [if_pos hid] at h; cases h
      · rw [if_neg hid] at h
        by_cases hv : Id3.getUint8 dv 3 ≥ 4
        · simp only [if_pos hv] at h
          by_cases hz : (decide (Id3.readSyncSafeInt dv (off + 4) = 0) ||
              decide (off + 10 + Id3.readSyncSafeInt dv (off + 4) > dv.length)) = true
          · rw [if_pos hz] at h; cases h
          · rw [if_neg hz] at h
            cases h
            simp only [if_pos hv]
            exact hss dv (off + 4)
        · simp only [if_neg hv] at h
          by_cases hz : (decide (Id3.getUint32 dv (off + 4) = 0) ||
              decide (off + 10 + Id3.getUint32 dv (off + 4) > dv.length)) = true
          · rw [if_pos hz] at h; cases h
          · rw [if_neg hz] at h
            cases h
            simp only [if_neg hv]
            exact hu32 dv (off + 4)
  · intro mkUrl dv h10 hid hv2 hv4 hflags
    have h10' : ¬ dv.length < 10 := by omega
    have hid' : (Id3.readString dv 0 3 != "ID3") = false := by
      simp [hid]
    have hvb : (decide (Id3.getUint8 dv 3 < 2) ||
        decide (Id3.getUint8 dv 3 > 4)) = false := by
      simp only [Bool.or_eq_false_iff, decide_eq_false_iff_not]
      omega
    have hfneg : ¬ (Id3.getUint8 dv 5 &&& 64 ≠ 0) := by simpa using hflags
    simp only [Id3.parseID3v2, if_neg h10', hid', Bool.false_eq_true, if_false,
      hvb, if_neg hfneg, hss]

set_option maxRecDepth 100000 in
/-- C2 witness: one frame whose size bytes `[0,0,1,0]` decode to 128 under
the sync-safe rule (major version 4) and to 256 under the plain big-endian
rule (major version 3), plus the sync-safe tag-size boundary of a version-4
header. -/
theorem frame_size_decoding_witness :
    (Id3.readFrame
        ([73, 68, 51, 4, 0, 0, 0, 0, 1, 116, 84, 73, 84, 50, 0, 0, 1, 0, 0, 0] ++
          List.replicate 128 65) 10 =
      some ⟨"TIT2", 128, 0, List.replicate 128 65⟩) ∧
    ((⟨"TIT2", 128, 0, List.replicate 128 65⟩ : Id3.Frame).size =
      if 4 ≤ Id3.getUint8
          ([73, 68, 51, 4, 0, 0, 0, 0, 1, 116, 84, 73, 84, 50, 0, 0, 1, 0, 0, 0] ++
            List.replicate 128 65) 3 then 128 else 256) ∧
    (Id3.readFrame
        ([73, 68, 51, 3, 0, 0, 0, 0, 1, 116, 84, 73, 84, 50, 0, 0, 1, 0, 0, 0] ++
          List.replicate 256 65) 10 =
      some ⟨"TIT2", 256, 0, List.replicate 256 65⟩) ∧
    ((⟨"TIT2", 256, 0, List.replicate 256 65⟩ : Id3.Frame).size =
      if 4 ≤ Id3.getUint8
          ([73, 68, 51, 3, 0, 0, 0, 0, 1, 116, 84, 73, 84, 50, 0, 0, 1, 0, 0, 0] ++
            List.replicate 256 65) 3 then 128 else 256) ∧
    (Id3.parseID3v2 (fun _ _ => "")
        ([73, 68, 51, 4, 0, 0, 0, 0, 1, 116, 84, 73, 84, 50, 0, 0, 1, 0, 0, 0] ++
          List.replicate 128 65) =
      Id3.walkFrames (fun _ _ => "")
        ([73, 68, 51, 4, 0, 0, 0, 0, 1, 116, 84, 73, 84, 50, 0, 0, 1, 0, 0, 0] ++
          List.replicate 128 65)
        (((Id3.getUint8
            ([73, 68, 51, 4, 0, 0, 0, 0, 1, 116, 84, 73, 84, 50, 0, 0, 1, 0, 0, 0] ++
              List.replicate 128 65) 6 * 128 +
          Id3.getUint8
            ([73, 68, 51, 4, 0, 0, 0, 0, 1, 116, 84, 73, 84, 50, 0, 0, 1, 0, 0, 0] ++
              List.replicate 128 65) 7) * 128 +
          Id3.getUint8
            ([73, 68, 51, 4, 0, 0, 0, 0, 1, 116, 84, 73, 84, 50, 0, 0, 1, 0, 0, 0] ++
              List.replicate 128 65) 8) * 128 +
          Id3.getUint8
            ([73, 68, 51, 4, 0, 0, 0, 0, 1, 116, 84, 73, 84, 50, 0, 0, 1, 0, 0, 0] ++
              List.replicate 128 65) 9)
        10 0 Id3.DEFAULT_METADATA) := by
  have h4 := frame_size_decoding.1
    ([73, 68, 51, 4, 0, 0, 0, 0, 1, 116, 84, 73, 84, 50, 0, 0, 1, 0, 0, 0] ++
      List.replicate 128 65) 10 ⟨"TIT2", 128, 0, List.replicate 128 65⟩
    (by decide)
  have h3 := frame_size_decoding.1
    ([73, 68, 51, 3, 0, 0, 0, 0, 1, 116, 84, 73, 84, 50, 0, 0, 1, 0, 0, 0] ++
      List.replicate 256 65) 10 ⟨"TIT2", 256, 0, List.replicate 256 65⟩
    (by decide)
  have hp := frame_size_decoding.2.2 (fun _ _ => "")
    ([73, 68, 51, 4, 0, 0, 0, 0, 1, 116, 84, 73, 84, 50, 0, 0, 1, 0, 0, 0] ++
      List.replicate 128 65)
    (by decide) (by decide) (by decide) (by decide) (by decide)
  refine ⟨by decide, ?_, by decide, ?_, hp⟩
  · rw [h4]; decide
  · rw [h3]; decide

/-- C6: `extractMetadata` is total in the embedding (the source wraps the
parser in a catch-all returning defaults), and on a buffer shorter than 10
bytes or lacking the 3-byte "ID3" magic it returns the all-default
metadata record (the source's "未知标题 / 未知艺术家 / 未知专辑" defaults
— the spec's "Unknown Title / Unknown Artist / Unknown Album" — with a
null cover). -/
theorem extract_metadata_defaults (mkUrl : List Nat → String → String)
    (dv : List Nat)
    (h : dv.length < 10 ∨ Id3.readString dv 0 3 ≠ "ID3") :
    Id3.extractMetadata mkUrl dv =
      { title := "未知标题", artist := "未知艺术家", album := "未知专辑",
        cover := none } := by
  show Id3.extractMetadata mkUrl dv = Id3.DEFAULT_METADATA
  unfold Id3.extractMetadata Id3.parseID3v2
  by_cases h10 : dv.length < 10
  · rw [if_pos h10]
  · rw [if_neg h10]
    have hid : Id3.readString dv 0 3 ≠ "ID3" := h.resolve_left h10
    have hbne : (Id3.readString dv 0 3 != "ID3") = true := bne_iff_ne.mpr hid
    simp only [hbne, if_true]

/-- C6 witness: a 12-byte all-zero buffer (long enough, wrong magic) maps
to the default record. -/
theorem extract_metadata_defaults_witness :
    Id3.readString (List.replicate 12 0) 0 3 ≠ "ID3" ∧
    Id3.extractMetadata (fun _ _ => "") (List.replicate 12 0) =
      { title := "未知标题", artist := "未知艺术家", album := "未知专辑",
        cover := none } :=
  ⟨by decide, extract_metadata_defaults (fun _ _ => "") (List.replicate 12 0)
    (Or.inr (by decide))⟩

/-- C5 counterexample: a text frame with encoding byte 0 (ISO-8859-1) and
payload `[0xE9]` ("é" in Latin-1).  The source decodes it with the UTF-8
decoder, yielding the replacement character U+FFFD instead of "é", so
encoding byte 0 is *not* decoded under Latin-1. -/
theorem text_encoding_counterexample :
    Id3.parseTextFrame [0, 233] = some ⟨[Char.ofNat 0xFFFD]⟩ ∧
    SpecSide.latin1Decode [233] = "é" ∧
    Id3.parseTextFrame [0, 233] ≠
      some (JsUtil.jsTrim (Id3.truncAtNull (SpecSide.latin1Decode [233]))) := by
  refine ⟨by decide, by decide, by decide⟩

/-- C5 (amended): the first payload byte selects the decoder — bytes 0
(nominally Latin-1) and 3 are both decoded as UTF-8, byte 1 as UTF-16 with
byte-order mark, byte 2 as UTF-16BE, and any other selector yields no text
— after which the decoded string is truncated at the first embedded NUL,
trimmed of surrounding whitespace, and an empty result is reported as
absent.  Stated as a refinement: the source's `parseTextFrame` equals the
spec-level pipeline on every payload. -/
theorem parseTextFrame_spec (data : List Nat) :
    Id3.parseTextFrame data = SpecSide.textFrameSpec data := by
  cases data with
  | nil => rfl
  | cons e rest =>
    by_cases h0 : e = 0
    · subst h0; rfl
    · by_cases h3 : e = 3
      · subst h3; rfl
      · by_cases h1 : e = 1
        · subst h1; rfl
        · by_cases h2 : e = 2
          · subst h2; rfl
          · have hb : (decide (e = 0) || decide (e = 3)) = false := by
              simp [h0, h3]
            simp only [Id3.parseTextFrame, SpecSide.textFrameSpec,
              List.getD_cons_zero, List.drop_one, List.tail_cons, hb,
              Bool.false_eq_true, if_false, if_neg h1, if_neg h2,
              if_neg (fun h : e = 0 ∨ e = 3 => h.elim h0 h3)]
            rfl

/-- C3 counterexample: a complete-looking cache entry whose cover is a
`blob:` URL is *not* re-processed, yet it is not reused unchanged either —
the stored copy re-validates the cover and drops it to `null`. -/
theorem refresh_reuse_counterexample :
    MetaMgr.processFileIfNeeded
        (some ⟨some "T", some "A", some "Al", some "blob:x", some "L"⟩) =
      MetaMgr.RefreshDecision.reuse ⟨"T", "A", "Al", none, some "L"⟩ ∧
    (⟨"T", "A", "Al", none, some "L"⟩ : MetaMgr.TrackMeta).cover ≠
      (⟨some "T", some "A", some "Al", some "blob:x", some "L"⟩ :
        MetaMgr.StoredMeta).cover := by
  exact ⟨by decide, by decide⟩

/-- C3 (amended): during `refreshAll` an existing entry is re-processed iff
it is missing (falsy) title, artist, cover or lyrics — in particular an
entry with title and artist but no cover is re-processed; otherwise it is
reused, with the source normalising the stored copy (album defaulted when
missing, cover re-validated, lyrics kept when truthy) — so an entry whose
album is present and whose cover survives validation is reused
unchanged. -/
theorem refresh_staleness (md : MetaMgr.StoredMeta) :
    (MetaMgr.processFileIfNeeded (some md) = MetaMgr.RefreshDecision.reprocess ↔
      (JsUtil.truthy md.title = false ∨ JsUtil.truthy md.artist = false ∨
       JsUtil.truthy md.cover = false ∨ JsUtil.truthy md.lyrics = false)) ∧
    (JsUtil.truthy md.title = true → JsUtil.truthy md.artist = true →
     JsUtil.truthy md.album = true → JsUtil.truthy md.cover = true →
     JsUtil.truthy md.lyrics = true →
     MetaMgr.validateAndPreserveCover md.cover = md.cover →
     MetaMgr.processFileIfNeeded (some md) =
       MetaMgr.RefreshDecision.reuse
         { title := md.title.getD "", artist := md.artist.getD "",
           album := md.album.getD "", cover := md.cover,
           lyrics := md.lyrics }) := by
  constructor
  · constructor
    · intro h
      by_contra hc
      push_neg at hc
      obtain ⟨h1, h2, h3, h4⟩ := hc
      rw [Bool.ne_false_iff] at h1 h2 h3 h4
      simp [MetaMgr.processFileIfNeeded, MetaMgr.shouldReprocessFile,
        h1, h2, h3, h4] at h
    · intro h
      have hs : MetaMgr.shouldReprocessFile (some md) = true := by
        simp only [MetaMgr.shouldReprocessFile]
        rcases h with h | h | h | h <;> simp [h]
      simp [MetaMgr.processFileIfNeeded, hs]
  · intro h1 h2 h3 h4 h5 hcov
    have hs : MetaMgr.shouldReprocessFile (some md) = false := by
      simp [MetaMgr.shouldReprocessFile, h1, h2, h4, h5]
    have halb : JsUtil.jsOr md.album "未知专辑" = md.album.getD "" := by
      cases halbm : md.album with
      | none => rw [halbm] at h3; simp [JsUtil.truthy] at h3
      | some s =>
        rw [halbm] at h3
        have hne : (s == "") = false := by
          simpa [JsUtil.truthy] using h3
        simp [JsUtil.jsOr, hne]
    have hlyr : JsUtil.jsOrNull md.lyrics = md.lyrics := by
      cases hlm : md.lyrics with
      | none => rfl
      | some s =>
        rw [hlm] at h5
        have hne : (s == "") = false := by
          simpa [JsUtil.truthy] using h5
        simp [JsUtil.jsOrNull, hne]
    simp [MetaMgr.processFileIfNeeded, hs, MetaMgr.reuseEntry, halb, hlyr, hcov]

/-- C3 witness: the staleness iff at an entry with title and artist but no
cover (re-processed), and the reuse branch at a fully valid entry with an
`http` cover (reused unchanged). -/
theorem refresh_staleness_witness :
    MetaMgr.processFileIfNeeded
        (some ⟨some "T", some "A", some "Al", none, some "L"⟩) =
      MetaMgr.RefreshDecision.reprocess ∧
    MetaMgr.processFileIfNeeded
        (some ⟨some "T", some "A", some "Al", some "http://c", some "L"⟩) =
      MetaMgr.RefreshDecision.reuse ⟨"T", "A", "Al", some "http://c", some "L"⟩ := by
  constructor
  · exact (refresh_staleness
      ⟨some "T", some "A", some "Al", none, some "L"⟩).1.mpr
      (Or.inr (Or.inr (Or.inl (by decide))))
  · have h := (refresh_staleness
      ⟨some "T", some "A", some "Al", some "http://c", some "L"⟩).2
      (by decide) (by decide) (by decide) (by decide) (by decide) (by decide)
    simpa using h

/-- C4 counterexample: a 3000KB cover (strictly between the 500KB small
threshold and the 5MB outright-reject threshold) with no compressor
available (`compressResult = none`) and no prior cover is *rejected*
(result `none`), not accepted unmodified — the code requires successful
compression above 2MB. -/
theorem cover_tier_counterexample :
    Cover.extractCover [⟨"jpeg", List.replicate 3072000 0⟩] none none = none ∧
    500 * 1024 < (List.replicate 3072000 (0 : Nat)).length ∧
    (List.replicate 3072000 (0 : Nat)).length ≤ 5120 * 1024 ∧
    Cover.extractCover [⟨"jpeg", List.replicate 3072000 0⟩] none none ≠
      some (Cover.createDataUrl ⟨"jpeg", List.replicate 3072000 0⟩) := by
  have hlen : (List.replicate 3072000 (0 : Nat)).length = 3072000 :=
    List.length_replicate _ _
  have hmain : Cover.extractCover [⟨"jpeg", List.replicate 3072000 0⟩] none none =
      none := by
    simp only [Cover.extractCover, JsUtil.truthy, Bool.false_and,
      Bool.false_eq_true, if_false, List.isEmpty_cons, List.headD_cons, hlen,
      if_neg (by norm_num : ¬ (3072000 : Nat) ≤ 500 * 1024),
      if_neg (by norm_num : ¬ (3072000 : Nat) ≤ 2048 * 1024),
      if_pos (by norm_num : (3072000 : Nat) ≤ 5120 * 1024), JsUtil.jsOrNull]
  refine ⟨hmain, by rw [hlen]; norm_num, by rw [hlen]; norm_num, ?_⟩
  intro hc
  rw [hmain] at hc
  cases hc

/-- C4 (amended): cover handling is four-tiered on the raw byte count
(size in KB = bytes/1024, exact in floating point): at most 500KB is
accepted unmodified; between 500KB and 2MB the compressed result is used
when compression yields one, else the original is accepted unmodified;
between 2MB and 5MB successful compression is required, otherwise the
result falls back to the previously cached cover or null; above 5MB the
picture is rejected outright, yielding the previous cover or null. -/
theorem cover_size_tiering (picture : Cover.Picture)
    (compressResult : Option String) :
    (picture.data.length ≤ 500 * 1024 →
      Cover.extractCover [picture] none compressResult =
        some (Cover.createDataUrl picture)) ∧
    (500 * 1024 < picture.data.length → picture.data.length ≤ 2048 * 1024 →
      Cover.extractCover [picture] none compressResult =
        (if JsUtil.truthy compressResult then compressResult
         else some (Cover.createDataUrl picture))) ∧
    (2048 * 1024 < picture.data.length → picture.data.length ≤ 5120 * 1024 →
      Cover.extractCover [picture] none compressResult =
        (if JsUtil.truthy compressResult then compressResult else none)) ∧
    (5120 * 1024 < picture.data.length →
      Cover.extractCover [picture] none compressResult = none) ∧
    (∀ prev : String, 5120 * 1024 < picture.data.length →
      (prev == "") = false → Cover.isValidCoverData prev = false →
      Cover.isSamePictureData picture prev = false →
      Cover.extractCover [picture] (some prev) compressResult = some prev) := by
  refine ⟨fun h1 => ?_, fun h1 h2 => ?_, fun h1 h2 => ?_, fun h1 => ?_,
    fun prev h1 hne hval hsame => ?_⟩
  · simp [Cover.extractCover, JsUtil.truthy, if_pos h1]
  · simp [Cover.extractCover, JsUtil.truthy, JsUtil.jsOrNull,
      if_neg (by omega : ¬ picture.data.length ≤ 500 * 1024), if_pos h2]
  · simp [Cover.extractCover, JsUtil.truthy, JsUtil.jsOrNull,
      if_neg (by omega : ¬ picture.data.length ≤ 500 * 1024),
      if_neg (by omega : ¬ picture.data.length ≤ 2048 * 1024), if_pos h2]
  · simp [Cover.extractCover, JsUtil.truthy, JsUtil.jsOrNull,
      if_neg (by omega : ¬ picture.data.length ≤ 500 * 1024),
      if_neg (by omega : ¬ picture.data.length ≤ 2048 * 1024),
      if_neg (by omega : ¬ picture.data.length ≤ 5120 * 1024)]
  · simp [Cover.extractCover, JsUtil.truthy, JsUtil.jsOrNull, hne, hval, hsame,
      if_neg (by omega : ¬ picture.data.length ≤ 500 * 1024),
      if_neg (by omega : ¬ picture.data.length ≤ 2048 * 1024),
      if_neg (by omega : ¬ picture.data.length ≤ 5120 * 1024)]

/-- C4 witness: a 4-byte PNG cover is accepted unmodified as a data URL. -/
theorem cover_size_tiering_witness :
    (⟨"png", [1, 2, 3, 4]⟩ : Cover.Picture).data.length ≤ 500 * 1024 ∧
    Cover.extractCover [⟨"png", [1, 2, 3, 4]⟩] none none =
      some (Cover.createDataUrl ⟨"png", [1, 2, 3, 4]⟩) ∧
    Cover.createDataUrl ⟨"png", [1, 2, 3, 4]⟩ = "data:image/png;base64,AQIDBA==" :=
  ⟨by decide, (cover_size_tiering ⟨"png", [1, 2, 3, 4]⟩ none).1 (by decide),
    by decide⟩
